import Mathlib

/-!
Verification development for the clawmesh mesh-first gateway fabric.

This file gives a shallow embedding, in Lean, of the core pure logic of the
repository and proves properties about it:

* `src/mesh/trust-policy.ts`   — `evaluateMeshForwardTrust`, tier ordering
* `src/mesh/command-envelope.ts` — `validateClawMeshCommandEnvelope`,
  `canonicalizeTrust`, `resolveMeshForwardTrustMetadata`
* `src/mesh/server-methods/forward.ts` — the `mesh.message.forward` receiver
* `src/mesh/handshake.ts`      — `buildMeshAuthPayload`, `verifyMeshConnectAuth`
* `src/mesh/world-model.ts`    — `WorldModel.ingest`
* `src/mesh/node-runtime.ts`   — the `context.frame` branch of
  `handleInboundMessage`
* `src/mesh/capabilities.ts` / `src/mesh/routing.ts` — capability registry and
  `resolveMeshRoute`
* `src/mesh/peer-registry.ts`  — `PeerRegistry.register` / `unregister`

JavaScript machine numbers are modeled as `Int` (no claim below depends on
floating-point behavior); wire-level JSON values are modeled by the inductive
type `JVal`.
-/

namespace ClawMesh

/-- A JSON-like runtime value, modeling what a `mesh.message.forward` request
can carry on the wire (TypeScript `unknown`). -/
inductive JVal where
  | null : JVal
  | bool (b : Bool) : JVal
  | num (n : Int) : JVal
  | str (s : String) : JVal
  | arr (elems : List JVal) : JVal
  | obj (fields : List (String × JVal)) : JVal

/-- Property access `value[key]` on a runtime value: defined for objects
(first matching key), `undefined` (`none`) otherwise.  String-keyed access on
arrays and primitives yields `undefined` in JS. -/
def jGet (v : JVal) (key : String) : Option JVal :=
  match v with
  | .obj fields => lookupField fields
  | _ => none
where
  lookupField : List (String × JVal) → Option JVal
    | [] => none
    | (k, x) :: rest => if k = key then some x else lookupField rest

/-- Predicate `isRecord` from `command-envelope.ts`:
`!!value && typeof value === "object"` — true for objects and arrays,
false for `null` and primitives. -/
def isRecordJ (v : JVal) : Bool :=
  match v with
  | .obj _ => true
  | .arr _ => true
  | _ => false

/-! ### Trust metadata (`src/mesh/types.ts`)

`MeshForwardTrustMetadata` has all-optional fields; enum-typed fields are
modeled as `Option String` because the policy functions defend against
out-of-domain wire values with `isKnownTrustTier` / `isKnownVerificationRequirement`. -/

structure MeshForwardTrustMetadata where
  action_type : Option String := none
  evidence_trust_tier : Option String := none
  minimum_trust_tier : Option String := none
  verification_required : Option String := none
  verification_satisfied : Option Bool := none
  evidence_sources : Option (List String) := none
  approved_by : Option (List String) := none
deriving DecidableEq

/-- JS truthiness of a possibly-absent string field: `undefined` and the
empty string are falsy. -/
def truthyStr (v : Option String) : Bool :=
  match v with
  | none => false
  | some s => !s.isEmpty

/-- Table `TRUST_TIER_ORDER` from `trust-policy.ts`, as a numeric rank.  Callers
guard with `isKnownTrustTier`; the `-1` default is unreachable there. -/
def trustTierOrderNum (s : String) : Int :=
  if s = "T0_planning_inference" then 0
  else if s = "T1_unverified_observation" then 1
  else if s = "T2_operational_observation" then 2
  else if s = "T3_verified_action_evidence" then 3
  else -1

/-- Check `isKnownTrustTier`: the string is a key of `TRUST_TIER_ORDER`. -/
def isKnownTrustTier (s : String) : Bool :=
  s = "T0_planning_inference" ∨ s = "T1_unverified_observation" ∨
    s = "T2_operational_observation" ∨ s = "T3_verified_action_evidence"

/-- Check `isKnownVerificationRequirement` from `trust-policy.ts`. -/
def isKnownVerificationRequirement (s : String) : Bool :=
  s = "none" ∨ s = "device" ∨ s = "human" ∨ s = "device_or_human"

/-- Comparison `hasAtLeastTrustTier` from `trust-policy.ts`. -/
def hasAtLeastTrustTier (actual minimum : String) : Bool :=
  trustTierOrderNum actual ≥ trustTierOrderNum minimum

/-- Comparison `compareMeshTrustTiers` from `trust-policy.ts`. -/
def compareMeshTrustTiers (a b : String) : Int :=
  trustTierOrderNum a - trustTierOrderNum b

/-! ### Command envelope (`src/mesh/types.ts`, `src/mesh/command-envelope.ts`) -/

structure CommandSource where
  nodeId : Option String := none
  role : Option String := none
deriving DecidableEq

structure CommandTarget where
  kind : String
  ref : String
deriving DecidableEq

structure CommandOperation where
  name : String
  params : Option (List (String × JVal)) := none

/-- Envelope type `ClawMeshCommandEnvelopeV1`.  The `trust` block is required by the TS
type; its fields keep the all-optional wire shape (validation forces the four
required ones to be present and in-domain). -/
structure ClawMeshCommandEnvelopeV1 where
  version : Int
  kind : String
  commandId : String
  createdAtMs : Int
  source : Option CommandSource := none
  target : CommandTarget
  operation : CommandOperation
  trust : MeshForwardTrustMetadata
  note : Option String := none

/-- Wire type `MeshForwardPayload`.  `channel`, `to` and `originGatewayId` are required
by the TS type but the receiver handler re-checks them for truthiness, so the
embedding keeps them optional (wire junk). -/
structure MeshForwardPayload where
  channel : Option String := none
  «to» : Option String := none
  message : Option String := none
  mediaUrl : Option String := none
  mediaUrls : Option (List String) := none
  accountId : Option String := none
  originGatewayId : Option String := none
  idempotencyKey : Option String := none
  command : Option ClawMeshCommandEnvelopeV1 := none
  trust : Option MeshForwardTrustMetadata := none

/-! ### Trust evaluation (`src/mesh/trust-policy.ts`) -/

inductive TrustDecision where
  | ok : TrustDecision
  | denial (code : String) (message : String) : TrustDecision
deriving DecidableEq

/-- The denial code of a decision, `none` when the decision is `ok`. -/
def TrustDecision.code : TrustDecision → Option String
  | .ok => none
  | .denial c _ => some c

/-- Policy gate `evaluateMeshForwardTrust` from `trust-policy.ts`, line for line.
JS truthiness tests on enum fields are `truthyStr`. -/
def evaluateMeshForwardTrust (payload : MeshForwardPayload) : TrustDecision :=
  match payload.trust with
  | none => .ok
  | some trust =>
    if truthyStr trust.evidence_trust_tier ∧
        ¬ isKnownTrustTier (trust.evidence_trust_tier.getD "") then
      .denial "INVALID_TRUST_POLICY"
        ("unknown evidence_trust_tier: " ++ trust.evidence_trust_tier.getD "")
    else if truthyStr trust.minimum_trust_tier ∧
        ¬ isKnownTrustTier (trust.minimum_trust_tier.getD "") then
      .denial "INVALID_TRUST_POLICY"
        ("unknown minimum_trust_tier: " ++ trust.minimum_trust_tier.getD "")
    else if truthyStr trust.verification_required ∧
        ¬ isKnownVerificationRequirement (trust.verification_required.getD "") then
      .denial "INVALID_TRUST_POLICY"
        ("unknown verification_required: " ++ trust.verification_required.getD "")
    else if trust.action_type ≠ some "actuation" then
      .ok
    else if ¬ truthyStr trust.evidence_trust_tier ∨
        ¬ truthyStr trust.minimum_trust_tier ∨
        ¬ truthyStr trust.verification_required then
      .denial "TRUST_METADATA_REQUIRED"
        "actuation commands must provide evidence_trust_tier, minimum_trust_tier, and verification_required"
    else
      let evidenceSources := trust.evidence_sources.getD []
      if evidenceSources.length > 0 ∧ evidenceSources.all (fun source => source = "llm") then
        .denial "LLM_ONLY_ACTUATION_BLOCKED"
          "actuation cannot be executed from LLM-only evidence; require sensor/device or human input"
      else if ¬ hasAtLeastTrustTier (trust.evidence_trust_tier.getD "")
          (trust.minimum_trust_tier.getD "") then
        .denial "INSUFFICIENT_TRUST_TIER"
          ("evidence_trust_tier " ++ trust.evidence_trust_tier.getD "" ++
            " is below required " ++ trust.minimum_trust_tier.getD "")
      else if trust.verification_required ≠ some "none" ∧
          trust.verification_satisfied ≠ some true then
        .denial "VERIFICATION_REQUIRED"
          ("verification_required=" ++ trust.verification_required.getD "" ++
            " but verification_satisfied is not true")
      else
        .ok

/-! ### Envelope validation (`src/mesh/command-envelope.ts`)

`validateClawMeshCommandEnvelope` receives `unknown`, so it is embedded over
raw `JVal` wire values. -/

/-- Property access on a possibly-`undefined` value.  Used only after a
record check in a short-circuit chain, matching the source's access order. -/
def jGetO (o : Option JVal) (key : String) : Option JVal :=
  match o with
  | some v => jGet v key
  | none => none

/-- Check `!!value && typeof value === "object"` on a possibly-absent field. -/
def jRecord (o : Option JVal) : Bool :=
  match o with
  | some v => isRecordJ v
  | none => false

/-- Check `value === n` for a numeric literal on a possibly-absent field. -/
def jNumIs (o : Option JVal) (n : Int) : Bool :=
  match o with
  | some (.num m) => m == n
  | _ => false

/-- Check `typeof value === "number"` on a possibly-absent field. -/
def jIsNum (o : Option JVal) : Bool :=
  match o with
  | some (.num _) => true
  | _ => false

/-- Check `value === s` for a string literal on a possibly-absent field. -/
def jStrIs (o : Option JVal) (s : String) : Bool :=
  match o with
  | some (.str t) => t == s
  | _ => false

/-- Check `typeof value === "string"` on a possibly-absent field. -/
def jIsStr (o : Option JVal) : Bool :=
  match o with
  | some (.str _) => true
  | _ => false

/-- Check `typeof value === "string" && value.length > 0`. -/
def jStrNonEmpty (o : Option JVal) : Bool :=
  match o with
  | some (.str s) => !s.isEmpty
  | _ => false

/-- Check `isKnownTrustTier(value)` on a raw field value
(`typeof value === "string" && value in TRUST_TIER_ORDER`). -/
def jTier (o : Option JVal) : Bool :=
  match o with
  | some (.str s) => isKnownTrustTier s
  | _ => false

/-- Check `isKnownVerificationRequirement(value)` on a raw field value. -/
def jVerif (o : Option JVal) : Bool :=
  match o with
  | some (.str s) => isKnownVerificationRequirement s
  | _ => false

/-- Validator `validateClawMeshCommandEnvelope(envelope)`: the early-return chain of the
source, where each failing check yields `false`. -/
def validateClawMeshCommandEnvelope (envelope : JVal) : Bool :=
  if ¬ isRecordJ envelope then false
  else if ¬ jNumIs (jGet envelope "version") 1 then false
  else if ¬ jStrIs (jGet envelope "kind") "clawmesh.command" then false
  else if ¬ jStrNonEmpty (jGet envelope "commandId") then false
  else if ¬ jIsNum (jGet envelope "createdAtMs") then false
  else if ¬ (jRecord (jGet envelope "target") &&
      jIsStr (jGetO (jGet envelope "target") "ref") &&
      jIsStr (jGetO (jGet envelope "target") "kind")) then false
  else if ¬ (jRecord (jGet envelope "operation") &&
      jIsStr (jGetO (jGet envelope "operation") "name")) then false
  else if ¬ jRecord (jGet envelope "trust") then false
  else
    let trust := jGet envelope "trust"
    (jStrIs (jGetO trust "action_type") "communication" ||
        jStrIs (jGetO trust "action_type") "observation" ||
        jStrIs (jGetO trust "action_type") "actuation") &&
      jTier (jGetO trust "evidence_trust_tier") &&
      jTier (jGetO trust "minimum_trust_tier") &&
      jVerif (jGetO trust "verification_required")

/-! ### Well-typed values as wire values

To validate a well-typed `ClawMeshCommandEnvelopeV1` (as
`resolveMeshForwardTrustMetadata` does before touching its trust block) the
structured envelope is reflected into its runtime `JVal` representation:
absent optional fields are absent keys. -/

def trustToJVal (t : MeshForwardTrustMetadata) : JVal :=
  .obj
    ((match t.action_type with | some s => [("action_type", JVal.str s)] | none => []) ++
      (match t.evidence_trust_tier with
        | some s => [("evidence_trust_tier", JVal.str s)] | none => []) ++
      (match t.minimum_trust_tier with
        | some s => [("minimum_trust_tier", JVal.str s)] | none => []) ++
      (match t.verification_required with
        | some s => [("verification_required", JVal.str s)] | none => []) ++
      (match t.verification_satisfied with
        | some b => [("verification_satisfied", JVal.bool b)] | none => []) ++
      (match t.evidence_sources with
        | some l => [("evidence_sources", JVal.arr (l.map JVal.str))] | none => []) ++
      (match t.approved_by with
        | some l => [("approved_by", JVal.arr (l.map JVal.str))] | none => []))

def envelopeToJVal (e : ClawMeshCommandEnvelopeV1) : JVal :=
  .obj
    ([("version", JVal.num e.version), ("kind", JVal.str e.kind),
      ("commandId", JVal.str e.commandId), ("createdAtMs", JVal.num e.createdAtMs)] ++
      (match e.source with
        | some src =>
          [("source", JVal.obj
            ((match src.nodeId with | some s => [("nodeId", JVal.str s)] | none => []) ++
              (match src.role with | some s => [("role", JVal.str s)] | none => [])))]
        | none => []) ++
      [("target", JVal.obj [("kind", JVal.str e.target.kind), ("ref", JVal.str e.target.ref)]),
        ("operation", JVal.obj
          ([("name", JVal.str e.operation.name)] ++
            (match e.operation.params with
              | some ps => [("params", JVal.obj ps)] | none => []))),
        ("trust", trustToJVal e.trust)] ++
      (match e.note with | some s => [("note", JVal.str s)] | none => []))

/-! ### Trust canonicalization (`canonicalizeTrust`)

The source normalizes a trust block over `TRUST_KEYS` in fixed order, sorting
array values and skipping `undefined` ones, then compares `JSON.stringify`
outputs.  Key order is fixed and `JSON.stringify` is injective on these
normalized records, so string equality coincides with equality of the
normalized records, which the embedding compares directly. -/

inductive CanonVal where
  | str (s : String) : CanonVal
  | bool (b : Bool) : CanonVal
  | arr (elems : List String) : CanonVal
deriving DecidableEq

/-- Model of `[...value].sort()` on an array of strings (JS default sort is
lexicographic on the string elements). -/
def sortStrings (l : List String) : List String :=
  l.insertionSort (fun a b => a ≤ b)

/-- Normalizer `canonicalizeTrust(trust)`: `none` models the `""` result for a missing
block; otherwise the normalized key/value list in `TRUST_KEYS` order. -/
def canonicalizeTrust (trust : Option MeshForwardTrustMetadata) :
    Option (List (String × CanonVal)) :=
  match trust with
  | none => none
  | some t =>
    some
      ((match t.action_type with | some s => [("action_type", CanonVal.str s)] | none => []) ++
        (match t.evidence_trust_tier with
          | some s => [("evidence_trust_tier", CanonVal.str s)] | none => []) ++
        (match t.minimum_trust_tier with
          | some s => [("minimum_trust_tier", CanonVal.str s)] | none => []) ++
        (match t.verification_required with
          | some s => [("verification_required", CanonVal.str s)] | none => []) ++
        (match t.verification_satisfied with
          | some b => [("verification_satisfied", CanonVal.bool b)] | none => []) ++
        (match t.evidence_sources with
          | some l => [("evidence_sources", CanonVal.arr (sortStrings l))] | none => []) ++
        (match t.approved_by with
          | some l => [("approved_by", CanonVal.arr (sortStrings l))] | none => []))

inductive ResolveTrustResult where
  | okWith (trust : Option MeshForwardTrustMetadata) : ResolveTrustResult
  | err (code : String) (message : String) : ResolveTrustResult
deriving DecidableEq

def ResolveTrustResult.code : ResolveTrustResult → Option String
  | .okWith _ => none
  | .err c _ => some c

/-- Resolver `resolveMeshForwardTrustMetadata(payload)` from `command-envelope.ts`. -/
def resolveMeshForwardTrustMetadata (payload : MeshForwardPayload) : ResolveTrustResult :=
  match payload.command with
  | none => .okWith payload.trust
  | some envelope =>
    if ¬ validateClawMeshCommandEnvelope (envelopeToJVal envelope) then
      .err "INVALID_COMMAND_ENVELOPE"
        "invalid clawmesh command envelope in mesh forward payload"
    else if payload.trust.isSome ∧
        canonicalizeTrust payload.trust ≠ canonicalizeTrust (some envelope.trust) then
      .err "TRUST_ENVELOPE_MISMATCH"
        "top-level trust metadata does not match command envelope trust metadata"
    else
      .okWith (some envelope.trust)

/-! ### The `mesh.message.forward` receiver (`src/mesh/server-methods/forward.ts`)

The handler checks required params and the loop guard, then directly awaits
the injected `onForward` sink and responds.  The generated `messageId` string
and the sink's side effects are not modeled; `sinkOk` stands for whether
`onForward` returned normally (`true`) or threw (`false`). -/

structure ForwardHandlerResult where
  /-- Whether the `onForward` sink was invoked. -/
  onForwardInvoked : Bool
  /-- The `ok` flag of the response. -/
  ok : Bool
  /-- The response error code, when `ok` is false. -/
  errorCode : Option String
deriving DecidableEq

def meshMessageForwardHandler (localDeviceId : String) (sinkOk : Bool)
    (p : MeshForwardPayload) : ForwardHandlerResult :=
  if ¬ (truthyStr p.channel ∧ truthyStr p.«to» ∧ truthyStr p.originGatewayId) then
    ⟨false, false, some "INVALID_PARAMS"⟩
  else if p.originGatewayId = some localDeviceId then
    ⟨false, false, some "LOOP_DETECTED"⟩
  else if sinkOk then
    ⟨true, true, none⟩
  else
    ⟨true, false, some "DELIVERY_FAILED"⟩

/-! ### Handshake (`src/mesh/handshake.ts`)

Ed25519 signature verification (`verifyDeviceSignature`) is cryptographic
I/O-free code outside the modeled fragment; it is abstracted as a parameter
`verifySig publicKey payload signature`. -/

structure MeshConnectAuth where
  deviceId : String
  publicKey : String
  signature : String
  signedAtMs : Int
  nonce : Option String := none
deriving DecidableEq

/-- Builder `buildMeshAuthPayload`: `"mesh.connect|v1|deviceId|signedAtMs[|nonce]"`. -/
def buildMeshAuthPayload (deviceId : String) (signedAtMs : Int)
    (nonce : Option String) : String :=
  String.intercalate "|"
    (["mesh.connect", "v1", deviceId, toString signedAtMs] ++
      (match nonce with | some n => [n] | none => []))

/-- Constant `MAX_CLOCK_DRIFT_MS = 5 * 60 * 1000` from `verifyMeshConnectAuth`. -/
def MAX_CLOCK_DRIFT_MS : Nat := 5 * 60 * 1000

/-- Verifier `verifyMeshConnectAuth`, with the current clock `now` (`Date.now()`) and
the signature primitive passed explicitly.  `Math.abs(now - signedAtMs)` over
millisecond counts is `Int.natAbs`. -/
def verifyMeshConnectAuth (verifySig : String → String → String → Bool)
    (now : Int) (p : MeshConnectAuth) : Bool :=
  if (now - p.signedAtMs).natAbs > MAX_CLOCK_DRIFT_MS then false
  else
    verifySig p.publicKey (buildMeshAuthPayload p.deviceId p.signedAtMs p.nonce) p.signature

/-! ### String-keyed maps

JS `Map` / plain-object state is modeled as association lists.  `mapSet`
models `Map.set` up to entry order (lookup- and membership-equivalent;
nothing proved below observes iteration order of re-set keys). -/

def mapLookup {β : Type} (k : String) : List (String × β) → Option β
  | [] => none
  | (k₂, v) :: rest => if k₂ = k then some v else mapLookup k rest

def mapErase {β : Type} (k : String) (m : List (String × β)) : List (String × β) :=
  m.filter (fun e => e.1 != k)

def mapSet {β : Type} (k : String) (v : β) (m : List (String × β)) : List (String × β) :=
  mapErase k m ++ [(k, v)]

/-! ### JSON serialization

`JSON.stringify` for the world-model fallback key.  (Control-character
escapes are not reproduced; no property proved below depends on the exact
escape of a data value.) -/

def escapeJsonChar (c : Char) : String :=
  if c = '"' then "\\\"" else if c = '\\' then "\\\\" else String.singleton c

def escapeJson (s : String) : String :=
  String.join (s.toList.map escapeJsonChar)

mutual

def jsonStringify : JVal → String
  | .null => "null"
  | .bool b => if b then "true" else "false"
  | .num n => toString n
  | .str s => "\"" ++ escapeJson s ++ "\""
  | .arr xs => "[" ++ jsonArrBody xs ++ "]"
  | .obj kvs => "\x7b" ++ jsonObjBody kvs ++ "\x7d"

def jsonArrBody : List JVal → String
  | [] => ""
  | [x] => jsonStringify x
  | x :: y :: rest => jsonStringify x ++ "," ++ jsonArrBody (y :: rest)

def jsonObjBody : List (String × JVal) → String
  | [] => ""
  | [(k, v)] => "\"" ++ escapeJson k ++ "\":" ++ jsonStringify v
  | (k, v) :: e :: rest =>
    "\"" ++ escapeJson k ++ "\":" ++ jsonStringify v ++ "," ++ jsonObjBody (e :: rest)

end

/-! ### Context frames and the world model
(`src/mesh/context-types.ts`, `src/mesh/world-model.ts`) -/

structure ContextTrust where
  evidence_sources : List String
  evidence_trust_tier : String
deriving DecidableEq

structure ContextFrame where
  kind : String
  frameId : String
  sourceDeviceId : String
  sourceDisplayName : Option String := none
  timestamp : Int
  data : List (String × JVal)
  trust : ContextTrust
  note : Option String := none
  hops : Option Int := none

structure WorldModelEntry where
  lastFrame : ContextFrame
  lastUpdated : Int
  updateCount : Int

structure WorldModel where
  entries : List (String × WorldModelEntry) := []
  frameLog : List ContextFrame := []
  seenFrameIds : List String := []

/-- Model of `Object.keys(data).sort().reduce(...)`: the record re-built in ascending
key order (records have unique keys, so this is sorting the pairs by key). -/
def sortPairsByKey (d : List (String × JVal)) : List (String × JVal) :=
  d.insertionSort (fun a b => a.1 ≤ b.1)

/-- The non-observation (or missing zone/metric) branch of
`WorldModel.makeKey`. -/
def fallbackKey (frame : ContextFrame) : String :=
  frame.sourceDeviceId ++ ":" ++ frame.kind ++ ":" ++
    jsonStringify (.obj (sortPairsByKey frame.data))

/-- Key function `WorldModel.makeKey(frame)`. -/
def makeKey (frame : ContextFrame) : String :=
  if frame.kind = "observation" then
    match jGet (.obj frame.data) "zone", jGet (.obj frame.data) "metric" with
    | some (.str z), some (.str m) =>
      frame.sourceDeviceId ++ ":" ++ frame.kind ++ ":" ++ z ++ ":" ++ m
    | _, _ => fallbackKey frame
  else fallbackKey frame

/-- State update `WorldModel.ingest(frame)`, with `Date.now()` passed as `now` and
`opts.maxHistory ?? 1000` as `maxHistory`.  Returns the `boolean` result
paired with the updated state.  (`slice(-0)` in JS is a full copy, hence the
inner `maxHistory = 0` case of the history trim.) -/
def ingest (now : Int) (maxHistory : Nat) (frame : ContextFrame) (wm : WorldModel) :
    Bool × WorldModel :=
  if wm.seenFrameIds.contains frame.frameId then
    (false, wm)
  else
    let seen := wm.seenFrameIds ++ [frame.frameId]
    let key := makeKey frame
    let existing := mapLookup key wm.entries
    let entry : WorldModelEntry :=
      { lastFrame := frame, lastUpdated := now,
        updateCount := (match existing with | some e => e.updateCount | none => 0) + 1 }
    let entries := mapSet key entry wm.entries
    let log₁ := wm.frameLog ++ [frame]
    let log₂ :=
      if log₁.length > maxHistory then
        (if maxHistory = 0 then log₁ else log₁.drop (log₁.length - maxHistory))
      else log₁
    let seen₂ :=
      if seen.length > maxHistory * 2 then log₂.map (fun f => f.frameId) else seen
    (true, { entries := entries, frameLog := log₂, seenFrameIds := seen₂ })

/-- The `context.frame` event branch of `MeshNodeRuntime.handleInboundMessage`
(`node-runtime.ts`): the inbound frame is ingested into the world model and
the handler returns.  The second component lists the `(deviceId, frame)`
re-emissions the branch performs on peer sessions — there are none. -/
def handleContextFrameEvent (now : Int) (maxHistory : Nat) (wm : WorldModel)
    (frame : ContextFrame) : WorldModel × List (String × ContextFrame) :=
  ((ingest now maxHistory frame wm).2, [])

/-! ### Capability registry and routing
(`src/mesh/capabilities.ts`, `src/mesh/routing.ts`) -/

structure MeshCapabilityRegistry where
  capsByPeer : List (String × List String) := []

/-- Operation `MeshCapabilityRegistry.updatePeer` (replaces wholesale). -/
def updatePeer (deviceId : String) (capabilities : List String)
    (reg : MeshCapabilityRegistry) : MeshCapabilityRegistry :=
  ⟨mapSet deviceId capabilities reg.capsByPeer⟩

/-- Operation `MeshCapabilityRegistry.removePeer`. -/
def removePeer (deviceId : String) (reg : MeshCapabilityRegistry) :
    MeshCapabilityRegistry :=
  ⟨mapErase deviceId reg.capsByPeer⟩

/-- Lookup `MeshCapabilityRegistry.findPeerWithChannel`: first peer in iteration
order whose capability set contains the literal string `channel:<name>`. -/
def findPeerWithChannel (channel : String) (reg : MeshCapabilityRegistry) :
    Option String :=
  go reg.capsByPeer
where
  go : List (String × List String) → Option String
    | [] => none
    | (deviceId, caps) :: rest =>
      if caps.contains ("channel:" ++ channel) then some deviceId else go rest

/-- Lookup `MeshCapabilityRegistry.findPeerWithSkill`. -/
def findPeerWithSkill (skill : String) (reg : MeshCapabilityRegistry) :
    Option String :=
  go reg.capsByPeer
where
  go : List (String × List String) → Option String
    | [] => none
    | (deviceId, caps) :: rest =>
      if caps.contains ("skill:" ++ skill) then some deviceId else go rest

inductive MeshRouteResult where
  | «local» : MeshRouteResult
  | mesh (peerDeviceId : String) : MeshRouteResult
  | unavailable : MeshRouteResult
deriving DecidableEq

/-- Router `resolveMeshRoute` from `routing.ts`; `localCapabilities` is optional in
the source (`params.localCapabilities?.has(...)`). -/
def resolveMeshRoute (channel : String) (capabilityRegistry : MeshCapabilityRegistry)
    (localCapabilities : Option (List String)) : MeshRouteResult :=
  if (localCapabilities.getD []).contains ("channel:" ++ channel) then
    .«local»
  else
    match findPeerWithChannel channel capabilityRegistry with
    | some peerDeviceId => .mesh peerDeviceId
    | none => .unavailable

/-! ### Peer session registry (`src/mesh/peer-registry.ts`)

`register` / `unregister` and the pending-RPC table.  The socket object and
the RPC timers are runtime I/O; the synchronous resolution of a pending RPC
is modeled by returning the list of resolutions the call performs. -/

structure PeerSession where
  deviceId : String
  connId : String
  displayName : Option String := none
  publicKey : Option String := none
  outbound : Bool := false
  capabilities : List String := []
  connectedAtMs : Int := 0
deriving DecidableEq

structure PendingRpc where
  deviceId : String
  method : String
deriving DecidableEq

structure PeerRegistry where
  peersById : List (String × PeerSession) := []
  peersByConn : List (String × String) := []
  pendingRpc : List (String × PendingRpc) := []
deriving DecidableEq

/-- A resolution `pending.resolve({ok:false, error:{code, ...}})` performed on
a pending RPC entry. -/
structure RpcFailure where
  id : String
  deviceId : String
  method : String
  code : String
deriving DecidableEq

/-- Operation `PeerRegistry.unregister(connId)`: returns the removed `deviceId` (or
`null`), the new state, and the pending-RPC resolutions performed. -/
def unregister (connId : String) (st : PeerRegistry) :
    Option String × PeerRegistry × List RpcFailure :=
  match mapLookup connId st.peersByConn with
  | none => (none, st, [])
  | some deviceId =>
    let peersByConn := mapErase connId st.peersByConn
    let peersById :=
      match mapLookup deviceId st.peersById with
      | some session =>
        if session.connId = connId then mapErase deviceId st.peersById else st.peersById
      | none => st.peersById
    let failed :=
      (st.pendingRpc.filter (fun e => e.2.deviceId == deviceId)).map
        (fun e => RpcFailure.mk e.1 e.2.deviceId e.2.method "PEER_DISCONNECTED")
    let pendingRpc := st.pendingRpc.filter (fun e => e.2.deviceId != deviceId)
    (some deviceId, ⟨peersById, peersByConn, pendingRpc⟩, failed)

/-- Operation `PeerRegistry.register(session)`: evict any existing session for the same
`deviceId` first, then install the dual mapping. -/
def register (session : PeerSession) (st : PeerRegistry) :
    PeerRegistry × List RpcFailure :=
  let evicted :=
    match mapLookup session.deviceId st.peersById with
    | some existing =>
      let r := unregister existing.connId st
      (r.2.1, r.2.2)
    | none => (st, [])
  (⟨mapSet session.deviceId session evicted.1.peersById,
      mapSet session.connId session.deviceId evicted.1.peersByConn,
      evicted.1.pendingRpc⟩,
    evicted.2)

/-! ### Invariant definitions and concrete example inputs -/

/-- Test double for `verifyDeviceSignature` standing for "the signature is
valid": accepts every (publicKey, payload, signature) triple. -/
def alwaysValidSig : String → String → String → Bool := fun _ _ _ => true

/-- The LLM-only actuation trust block used by `forward.trust.test.ts` and
`buildLlmOnlyActuationTrust` in `node-runtime.ts`. -/
def llmOnlyActuationTrust : MeshForwardTrustMetadata :=
  { action_type := some "actuation",
    evidence_sources := some ["llm"],
    evidence_trust_tier := some "T3_verified_action_evidence",
    minimum_trust_tier := some "T2_operational_observation",
    verification_required := some "none" }

/-- The first request of `forward.trust.test.ts`: an LLM-only actuation
forward from a non-local origin. -/
def llmOnlyForwardPayload : MeshForwardPayload :=
  { channel := some "clawmesh",
    «to» := some "actuator:valve:zone-a",
    message := some "open 30s",
    originGatewayId := some "peer-jetson",
    idempotencyKey := some "idem-1",
    trust := some llmOnlyActuationTrust }

/-- A fully valid command envelope as a wire value (the S1 seed scenario of
the spec, with `kind` as the source actually produces it). -/
def exampleEnvelopeJ : JVal :=
  .obj
    [("version", .num 1), ("kind", .str "clawmesh.command"),
      ("commandId", .str "cmd-1"), ("createdAtMs", .num 1700000000000),
      ("source", .obj [("nodeId", .str "mac-claw"), ("role", .str "planner")]),
      ("target", .obj [("kind", .str "capability"), ("ref", .str "actuator:mock:valve-1")]),
      ("operation", .obj [("name", .str "open"), ("params", .obj [("durationSec", .num 45)])]),
      ("trust", .obj
        [("action_type", .str "actuation"),
          ("evidence_trust_tier", .str "T3_verified_action_evidence"),
          ("minimum_trust_tier", .str "T2_operational_observation"),
          ("verification_required", .str "human"),
          ("verification_satisfied", .bool true),
          ("evidence_sources", .arr [.str "sensor", .str "human"])])]

/-- A fresh sensor observation frame arriving from a peer with `hops = 0`. -/
def exampleInboundFrame : ContextFrame :=
  { kind := "observation", frameId := "frame-1", sourceDeviceId := "device-a",
    timestamp := 1000,
    data := [("zone", .str "zone-a"), ("metric", .str "moisture"), ("value", .num 21)],
    trust := { evidence_sources := ["sensor"],
               evidence_trust_tier := "T2_operational_observation" },
    hops := some 0 }

/-- Keys of the association map are pairwise distinct. -/
def NodupKeys {β : Type} (m : List (String × β)) : Prop :=
  (m.map Prod.fst).Nodup

/-- The registry's dual-index invariant: unique deviceIds, unique connIds,
and every session reachable consistently through both indexes. -/
def RegInv (st : PeerRegistry) : Prop :=
  NodupKeys st.peersById ∧ NodupKeys st.peersByConn ∧
    ∀ e ∈ st.peersById, e.2.deviceId = e.1 ∧
      mapLookup e.2.connId st.peersByConn = some e.1

/-- Pointwise permutation of an optional string array (absent on both sides,
or present on both with the same multiset of elements). -/
def OptPerm : Option (List String) → Option (List String) → Prop
  | none, none => True
  | some l₁, some l₂ => l₁.Perm l₂
  | _, _ => False

/-- The S6-style mismatch inputs of `command-envelope.test.ts`: envelope
trust requires tier `T2`, the top-level copy demands `T3`. -/
def exampleEnvelopeTrust : MeshForwardTrustMetadata :=
  { action_type := some "actuation", evidence_sources := some ["sensor"],
    evidence_trust_tier := some "T2_operational_observation",
    minimum_trust_tier := some "T2_operational_observation",
    verification_required := some "device", verification_satisfied := some true }

def exampleEnvelopeT : ClawMeshCommandEnvelopeV1 :=
  { version := 1, kind := "clawmesh.command", commandId := "cmd-2",
    createdAtMs := 1700000000000,
    source := some { nodeId := some "jetson-claw", role := some "executor" },
    target := { kind := "capability", ref := "actuator:pump:main" },
    operation := { name := "start" },
    trust := exampleEnvelopeTrust }

def exampleMismatchPayload : MeshForwardPayload :=
  { channel := some "clawmesh", «to» := some "actuator:pump:main",
    originGatewayId := some "jetson-gateway", idempotencyKey := some "idem-2",
    command := some exampleEnvelopeT,
    trust := some { exampleEnvelopeTrust with
      minimum_trust_tier := some "T3_verified_action_evidence" } }


/-! ## Helper lemmas -/

theorem jRecord_eq_true {o : Option JVal} :
    jRecord o = true ↔ ∃ v, o = some v ∧ isRecordJ v = true := by
  rcases o with _ | v <;> simp [jRecord]

theorem jNumIs_eq_true {o : Option JVal} {n : Int} :
    jNumIs o n = true ↔ o = some (.num n) := by
  rcases o with _ | v
  · simp [jNumIs]
  · rcases v <;> simp [jNumIs]

theorem jIsNum_eq_true {o : Option JVal} :
    jIsNum o = true ↔ ∃ n, o = some (.num n) := by
  rcases o with _ | v
  · simp [jIsNum]
  · rcases v <;> simp [jIsNum]

theorem jStrIs_eq_true {o : Option JVal} {s : String} :
    jStrIs o s = true ↔ o = some (.str s) := by
  rcases o with _ | v
  · simp [jStrIs]
  · rcases v <;> simp [jStrIs]

theorem jIsStr_eq_true {o : Option JVal} :
    jIsStr o = true ↔ ∃ s, o = some (.str s) := by
  rcases o with _ | v
  · simp [jIsStr]
  · rcases v <;> simp [jIsStr]

theorem jStrNonEmpty_eq_true {o : Option JVal} :
    jStrNonEmpty o = true ↔ ∃ s, o = some (.str s) ∧ s ≠ "" := by
  rcases o with _ | v
  · simp [jStrNonEmpty]
  · rcases v <;> simp [jStrNonEmpty]
    rw [← Bool.not_eq_true]
    exact not_congr (String.isEmpty_iff _)

theorem jTier_eq_true {o : Option JVal} :
    jTier o = true ↔ ∃ s, o = some (.str s) ∧ isKnownTrustTier s = true := by
  rcases o with _ | v
  · simp [jTier]
  · rcases v <;> simp [jTier]

theorem jVerif_eq_true {o : Option JVal} :
    jVerif o = true ↔ ∃ s, o = some (.str s) ∧ isKnownVerificationRequirement s = true := by
  rcases o with _ | v
  · simp [jVerif]
  · rcases v <;> simp [jVerif]

/-! ## Claims -/

/-! ### C3 — handshake clock-drift boundary

The source rejects only drifts *strictly greater* than 5 minutes
(`Math.abs(now - signedAtMs) > MAX_CLOCK_DRIFT_MS`), so a drift of exactly
5 minutes is accepted, against the claimed boundary. -/

/-- C3 counterexample: with a valid signature and a drift of exactly
5 minutes (`now = 300000`, `signedAtMs = 0`), `verifyMeshConnectAuth`
returns `true`, not `false` as the claim states. -/
theorem C3_counterexample_exact_five_minutes :
    verifyMeshConnectAuth alwaysValidSig 300000
        { deviceId := "peer-a", publicKey := "pk-a", signature := "sig-a",
          signedAtMs := 0 } = true ∧
      (300000 : Int) - 0 = 5 * 60 * 1000 := by
  exact ⟨rfl, rfl⟩

/-- C3 (amended): for a payload whose signature verifies, handshake
verification succeeds exactly when the clock drift `|now - signedAtMs|` is at
most 5 minutes — so 4 minutes of drift is accepted, exactly 5 minutes is
still accepted, and anything beyond 5 minutes is rejected. -/
theorem C3_drift_window (verifySig : String → String → String → Bool)
    (now : Int) (p : MeshConnectAuth)
    (hsig : verifySig p.publicKey
      (buildMeshAuthPayload p.deviceId p.signedAtMs p.nonce) p.signature = true) :
    verifyMeshConnectAuth verifySig now p = true ↔
      (now - p.signedAtMs).natAbs ≤ 5 * 60 * 1000 := by
  unfold verifyMeshConnectAuth MAX_CLOCK_DRIFT_MS
  split
  · rename_i h
    simp only [Bool.false_eq_true, false_iff]
    omega
  · rename_i h
    rw [hsig]
    simp only [true_iff]
    omega

/-- C3 witness: a valid-signature payload at 4 minutes of drift is accepted. -/
theorem C3_drift_window_witness :
    verifyMeshConnectAuth alwaysValidSig 240000
      { deviceId := "peer-a", publicKey := "pk-a", signature := "sig-a",
        signedAtMs := 0 } = true :=
  (C3_drift_window alwaysValidSig 240000
      { deviceId := "peer-a", publicKey := "pk-a", signature := "sig-a",
        signedAtMs := 0 } rfl).mpr (by decide)

/-! ### C1 — the receiver runs no envelope or trust check

`createMeshForwardHandlers` in `server-methods/forward.ts` validates only
`channel`/`to`/`originGatewayId` presence and the loop guard, then invokes
`onForward` directly: `resolveMeshForwardTrustMetadata` and
`evaluateMeshForwardTrust` are never called on the receive path (the only
runtime caller of `evaluateMeshForwardTrust` is the sender-side
`sendMockActuation`).  The LLM-only actuation payload of
`forward.trust.test.ts` is therefore accepted and delivered although trust
evaluation denies it, contradicting both the claim and that test. -/

/-- C1: the `mesh.message.forward` receiver accepts the LLM-only actuation
payload and invokes the `onForward` sink, even though trust evaluation on the
same payload yields the `LLM_ONLY_ACTUATION_BLOCKED` denial — the handler
never runs the envelope consistency check or the trust evaluation. -/
theorem C1_receiver_skips_trust_evaluation :
    meshMessageForwardHandler "local-gateway-id" true llmOnlyForwardPayload =
        { onForwardInvoked := true, ok := true, errorCode := none } ∧
      (evaluateMeshForwardTrust llmOnlyForwardPayload).code =
        some "LLM_ONLY_ACTUATION_BLOCKED" := by
  exact ⟨by decide, by decide⟩

/-! ### C5 — the LLM-only actuation rule -/

/-- C5: for an actuation payload with the three required trust fields present
and in-domain, trust evaluation returns `LLM_ONLY_ACTUATION_BLOCKED` exactly
when `evidence_sources` is non-empty and every element is `"llm"`; and when
some element is not `"llm"`, the outcome is decided only by the tier
comparison and the verification rule. -/
theorem C5_llm_only_actuation_rule (payload : MeshForwardPayload)
    (trust : MeshForwardTrustMetadata)
    (hpt : payload.trust = some trust)
    (hact : trust.action_type = some "actuation")
    (hte : truthyStr trust.evidence_trust_tier = true)
    (htm : truthyStr trust.minimum_trust_tier = true)
    (htv : truthyStr trust.verification_required = true)
    (hke : isKnownTrustTier (trust.evidence_trust_tier.getD "") = true)
    (hkm : isKnownTrustTier (trust.minimum_trust_tier.getD "") = true)
    (hkv : isKnownVerificationRequirement (trust.verification_required.getD "") = true) :
    ((evaluateMeshForwardTrust payload).code = some "LLM_ONLY_ACTUATION_BLOCKED" ↔
      trust.evidence_sources.getD [] ≠ [] ∧
        ∀ x ∈ trust.evidence_sources.getD [], x = "llm") ∧
    ((∃ x ∈ trust.evidence_sources.getD [], x ≠ "llm") →
      (evaluateMeshForwardTrust payload).code =
        (if ¬ hasAtLeastTrustTier (trust.evidence_trust_tier.getD "")
            (trust.minimum_trust_tier.getD "") then some "INSUFFICIENT_TRUST_TIER"
          else if trust.verification_required ≠ some "none" ∧
              trust.verification_satisfied ≠ some true then some "VERIFICATION_REQUIRED"
          else none)) := by
  have g1 : ¬ (truthyStr trust.evidence_trust_tier = true ∧
      ¬ isKnownTrustTier (trust.evidence_trust_tier.getD "") = true) :=
    fun h => h.2 hke
  have g2 : ¬ (truthyStr trust.minimum_trust_tier = true ∧
      ¬ isKnownTrustTier (trust.minimum_trust_tier.getD "") = true) :=
    fun h => h.2 hkm
  have g3 : ¬ (truthyStr trust.verification_required = true ∧
      ¬ isKnownVerificationRequirement (trust.verification_required.getD "") = true) :=
    fun h => h.2 hkv
  have g4 : ¬ (trust.action_type ≠ some "actuation") := fun h => h hact
  have g5 : ¬ (¬ truthyStr trust.evidence_trust_tier = true ∨
      ¬ truthyStr trust.minimum_trust_tier = true ∨
      ¬ truthyStr trust.verification_required = true) := by
    simp [hte, htm, htv]
  simp only [evaluateMeshForwardTrust, hpt]
  rw [if_neg g1, if_neg g2, if_neg g3, if_neg g4, if_neg g5]
  have hiff : (List.length (trust.evidence_sources.getD []) > 0 ∧
      List.all (trust.evidence_sources.getD [])
        (fun source => decide (source = "llm")) = true) ↔
      (trust.evidence_sources.getD [] ≠ [] ∧
        ∀ x ∈ trust.evidence_sources.getD [], x = "llm") := by
    simp [List.all_eq_true, List.length_pos]
  constructor
  · by_cases hllm : List.length (trust.evidence_sources.getD []) > 0 ∧
        List.all (trust.evidence_sources.getD [])
          (fun source => decide (source = "llm")) = true
    · rw [if_pos hllm]
      exact iff_of_true rfl (hiff.mp hllm)
    · rw [if_neg hllm]
      refine iff_of_false ?_ (fun hr => hllm (hiff.mpr hr))
      split
      · intro h
        simp [TrustDecision.code] at h
      · split
        · intro h
          simp [TrustDecision.code] at h
        · intro h
          simp [TrustDecision.code] at h
  · rintro ⟨x, hx, hxne⟩
    have hllm : ¬ (List.length (trust.evidence_sources.getD []) > 0 ∧
        List.all (trust.evidence_sources.getD [])
          (fun source => decide (source = "llm")) = true) :=
      fun h => hxne ((hiff.mp h).2 x hx)
    rw [if_neg hllm]
    split_ifs <;> simp_all [TrustDecision.code]

/-- C5 witness: `["llm", "llm"]` is blocked at a concrete actuation payload
(the hypotheses of the rule are satisfiable). -/
theorem C5_llm_only_actuation_rule_witness :
    (evaluateMeshForwardTrust
        { channel := some "clawmesh", «to» := some "valve:zone-a",
          originGatewayId := some "peer-jetson",
          trust := some { llmOnlyActuationTrust with
            evidence_sources := some ["llm", "llm"] } }).code =
      some "LLM_ONLY_ACTUATION_BLOCKED" :=
  ((C5_llm_only_actuation_rule _
        { llmOnlyActuationTrust with evidence_sources := some ["llm", "llm"] }
        rfl rfl (by decide) (by decide) (by decide) (by decide) (by decide)
        (by decide)).1).mpr (by decide)

/-! ### C9 — local-first routing with literal capability matching -/

theorem findPeerWithChannel_go_eq_none (channel : String)
    (l : List (String × List String)) :
    findPeerWithChannel.go channel l = none ↔
      ∀ e ∈ l, ("channel:" ++ channel) ∉ e.2 := by
  induction l with
  | nil => simp [findPeerWithChannel.go]
  | cons e rest ih =>
    rcases e with ⟨d, caps⟩
    simp only [findPeerWithChannel.go]
    by_cases h : ("channel:" ++ channel) ∈ caps
    · rw [if_pos (List.elem_iff.mpr h)]
      refine iff_of_false (by simp) (fun hall => hall (d, caps) (by simp) h)
    · rw [if_neg (fun hc => h (List.elem_iff.mp hc))]
      rw [ih]
      constructor
      · intro hr e he
        rcases List.mem_cons.mp he with he | he
        · rw [he]
          exact h
        · exact hr e he
      · intro hall e he
        exact hall e (List.mem_cons_of_mem _ he)

theorem findPeerWithChannel_go_eq_some (channel : String)
    (l : List (String × List String)) (p : String)
    (h : findPeerWithChannel.go channel l = some p) :
    ∃ caps, (p, caps) ∈ l ∧ ("channel:" ++ channel) ∈ caps := by
  induction l with
  | nil => simp [findPeerWithChannel.go] at h
  | cons e rest ih =>
    rcases e with ⟨d, caps⟩
    simp only [findPeerWithChannel.go] at h
    by_cases hc : caps.contains ("channel:" ++ channel) = true
    · rw [if_pos hc] at h
      refine ⟨caps, ?_, List.elem_iff.mp hc⟩
      obtain rfl : d = p := by injection h
      simp
    · rw [if_neg hc] at h
      obtain ⟨caps₂, hmem, hin⟩ := ih h
      exact ⟨caps₂, List.mem_cons_of_mem _ hmem, hin⟩

/-- C9: routing is local-first and capability matching is literal — when the
local capability set contains the exact string `channel:<x>` the route is
`local` whatever the registry holds; otherwise the route is `unavailable`
exactly when no registered peer advertises the literal `channel:<x>`, and a
`mesh p` route always names a registered peer whose capability set contains
that literal string (so a `skill:<x>` capability never satisfies a channel
lookup). -/
theorem C9_local_first_literal_routing (channel : String)
    (reg : MeshCapabilityRegistry) (localCaps : Option (List String)) :
    (("channel:" ++ channel) ∈ localCaps.getD [] →
      resolveMeshRoute channel reg localCaps = .«local») ∧
    (("channel:" ++ channel) ∉ localCaps.getD [] →
      ((resolveMeshRoute channel reg localCaps = .unavailable ↔
          ∀ e ∈ reg.capsByPeer, ("channel:" ++ channel) ∉ e.2) ∧
        (∀ p, resolveMeshRoute channel reg localCaps = .mesh p →
          ∃ caps, (p, caps) ∈ reg.capsByPeer ∧ ("channel:" ++ channel) ∈ caps))) := by
  constructor
  · intro hmem
    simp only [resolveMeshRoute]
    rw [if_pos (List.elem_iff.mpr hmem)]
  · intro hnot
    have hcond : ¬ ((localCaps.getD []).contains ("channel:" ++ channel) = true) :=
      fun hc => hnot (List.elem_iff.mp hc)
    constructor
    · simp only [resolveMeshRoute]
      rw [if_neg hcond]
      rcases hgo : findPeerWithChannel channel reg with _ | p
      · refine iff_of_true rfl ?_
        simp only [findPeerWithChannel] at hgo
        exact (findPeerWithChannel_go_eq_none channel reg.capsByPeer).mp hgo
      · refine iff_of_false (by simp) ?_
        intro hall
        simp only [findPeerWithChannel] at hgo
        rw [(findPeerWithChannel_go_eq_none channel reg.capsByPeer).mpr hall] at hgo
        exact Option.noConfusion hgo
    · intro p hroute
      simp only [resolveMeshRoute] at hroute
      rw [if_neg hcond] at hroute
      rcases hgo : findPeerWithChannel channel reg with _ | q
      · rw [hgo] at hroute
        exact absurd hroute (by simp)
      · rw [hgo] at hroute
        have hqp : q = p := by simpa using hroute
        simp only [findPeerWithChannel] at hgo
        rw [hqp] at hgo
        exact findPeerWithChannel_go_eq_some channel reg.capsByPeer p hgo

/-- C9 witness: a concrete instantiation — with `channel:telegram` available
locally the route is `local`; without local capability, a peer advertising
only `skill:telegram` leaves the channel `unavailable`. -/
theorem C9_local_first_literal_routing_witness :
    resolveMeshRoute "telegram" ⟨[("peer-a", ["skill:telegram"])]⟩
        (some ["channel:telegram"]) = .«local» ∧
      resolveMeshRoute "telegram" ⟨[("peer-a", ["skill:telegram"])]⟩
        (some ["skill:telegram"]) = .unavailable :=
  ⟨(C9_local_first_literal_routing "telegram" ⟨[("peer-a", ["skill:telegram"])]⟩
      (some ["channel:telegram"])).1 (by decide),
    ((C9_local_first_literal_routing "telegram" ⟨[("peer-a", ["skill:telegram"])]⟩
        (some ["skill:telegram"])).2 (by decide)).1.mpr (by decide)⟩

/-! ### C4 — envelope validation

The validator accepts only `kind == "clawmesh.command"`, not
`kind == "command"` as the claim (following the spec) states; everything else
in the claim matches the source. -/

/-- C4 counterexample: a record whose `kind` is `"clawmesh.command"` — not
`"command"` — passes validation, so validation does not require
`kind == "command"`. -/
theorem C4_counterexample_kind_string :
    validateClawMeshCommandEnvelope exampleEnvelopeJ = true ∧
      jGet exampleEnvelopeJ "kind" = some (.str "clawmesh.command") ∧
      "clawmesh.command" ≠ "command" :=
  ⟨by decide, rfl, by decide⟩

/-- C4 (amended): `validateClawMeshCommandEnvelope x` returns `true` only if
`x` is a record with `version == 1` and `kind == "clawmesh.command"`, a
non-empty string `commandId`, a numeric `createdAtMs`, a `target` record with
string `kind` and `ref`, an `operation` record with string `name`, and a
`trust` record whose `action_type`, `evidence_trust_tier`,
`minimum_trust_tier` and `verification_required` each lie in their declared
enum domains (any unknown enum value fails). -/
theorem C4_validate_only_if (x : JVal)
    (h : validateClawMeshCommandEnvelope x = true) :
    isRecordJ x = true ∧
    jGet x "version" = some (.num 1) ∧
    jGet x "kind" = some (.str "clawmesh.command") ∧
    (∃ s, jGet x "commandId" = some (.str s) ∧ s ≠ "") ∧
    (∃ n, jGet x "createdAtMs" = some (.num n)) ∧
    (∃ target, jGet x "target" = some target ∧ isRecordJ target = true ∧
      (∃ tk, jGet target "kind" = some (.str tk)) ∧
      (∃ tr, jGet target "ref" = some (.str tr))) ∧
    (∃ operation, jGet x "operation" = some operation ∧ isRecordJ operation = true ∧
      ∃ opName, jGet operation "name" = some (.str opName)) ∧
    (∃ trust, jGet x "trust" = some trust ∧ isRecordJ trust = true ∧
      (∃ a, jGet trust "action_type" = some (.str a) ∧
        (a = "communication" ∨ a = "observation" ∨ a = "actuation")) ∧
      (∃ e, jGet trust "evidence_trust_tier" = some (.str e) ∧
        isKnownTrustTier e = true) ∧
      (∃ m, jGet trust "minimum_trust_tier" = some (.str m) ∧
        isKnownTrustTier m = true) ∧
      (∃ v, jGet trust "verification_required" = some (.str v) ∧
        isKnownVerificationRequirement v = true)) := by
  unfold validateClawMeshCommandEnvelope at h
  split at h
  · simp at h
  split at h
  · simp at h
  split at h
  · simp at h
  split at h
  · simp at h
  split at h
  · simp at h
  split at h
  · simp at h
  split at h
  · simp at h
  split at h
  · simp at h
  rename_i h1 h2 h3 h4 h5 h6 h7 h8
  rw [not_not] at h1 h2 h3 h4 h5 h6 h7 h8
  obtain ⟨s, hcid, hs⟩ := jStrNonEmpty_eq_true.mp h4
  obtain ⟨n, hcam⟩ := jIsNum_eq_true.mp h5
  simp only [Bool.and_eq_true] at h6 h7
  obtain ⟨⟨ht6, hr6⟩, hk6⟩ := h6
  obtain ⟨ho7, hn7⟩ := h7
  obtain ⟨target, htv, htrec⟩ := jRecord_eq_true.mp ht6
  rw [htv] at hr6 hk6
  simp only [jGetO] at hr6 hk6
  obtain ⟨tr, htr⟩ := jIsStr_eq_true.mp hr6
  obtain ⟨tk, htk⟩ := jIsStr_eq_true.mp hk6
  obtain ⟨operation, hov, horec⟩ := jRecord_eq_true.mp ho7
  rw [hov] at hn7
  simp only [jGetO] at hn7
  obtain ⟨opName, hop⟩ := jIsStr_eq_true.mp hn7
  obtain ⟨trust, htrv, htrustrec⟩ := jRecord_eq_true.mp h8
  rw [htrv] at h
  simp only [jGetO, Bool.and_eq_true, Bool.or_eq_true] at h
  obtain ⟨⟨⟨hact, hte⟩, htm⟩, hvr⟩ := h
  refine ⟨h1, jNumIs_eq_true.mp h2, jStrIs_eq_true.mp h3, ⟨s, hcid, hs⟩, ⟨n, hcam⟩,
    ⟨target, htv, htrec, ⟨tk, htk⟩, ⟨tr, htr⟩⟩,
    ⟨operation, hov, horec, ⟨opName, hop⟩⟩,
    ⟨trust, htrv, htrustrec, ?_, ?_, ?_, ?_⟩⟩
  · rcases hact with (hc | ho) | ha
    · exact ⟨"communication", jStrIs_eq_true.mp hc, Or.inl rfl⟩
    · exact ⟨"observation", jStrIs_eq_true.mp ho, Or.inr (Or.inl rfl)⟩
    · exact ⟨"actuation", jStrIs_eq_true.mp ha, Or.inr (Or.inr rfl)⟩
  · exact jTier_eq_true.mp hte
  · exact jTier_eq_true.mp htm
  · exact jVerif_eq_true.mp hvr

/-- C4 witness: the amended conditions hold at the concrete valid envelope. -/
theorem C4_validate_only_if_witness :
    jGet exampleEnvelopeJ "kind" = some (.str "clawmesh.command") ∧
      (∃ s, jGet exampleEnvelopeJ "commandId" = some (.str s) ∧ s ≠ "") :=
  ⟨(C4_validate_only_if exampleEnvelopeJ (by decide)).2.2.1,
    (C4_validate_only_if exampleEnvelopeJ (by decide)).2.2.2.1⟩

/-! ### C2 — inbound context frames: ingest, but no hop-limited re-emission

The `context.frame` branch of `MeshNodeRuntime.handleInboundMessage` only
calls `worldModel.ingest(contextFrame)`; there is no `MAX_GOSSIP_HOPS`
constant, no seen-set in the propagator, and no re-emission to other sessions
anywhere in the source. -/

/-- The new frame survives the history trim whenever `maxHistory ≥ 1`
(the trim keeps the most recent `maxHistory` frames). -/
theorem mem_trimmedLog (l : List ContextFrame) (f : ContextFrame) (maxH : Nat)
    (hmax : 1 ≤ maxH) :
    f ∈ (if (l ++ [f]).length > maxH then
        (if maxH = 0 then l ++ [f] else (l ++ [f]).drop ((l ++ [f]).length - maxH))
      else l ++ [f]) := by
  split
  · rw [if_neg (by omega)]
    have hk : (l ++ [f]).length - maxH ≤ l.length := by
      simp only [List.length_append, List.length_singleton]
      omega
    rw [List.drop_append_of_le_length hk]
    exact List.mem_append_right _ (by simp)
  · exact List.mem_append_right _ (by simp)

/-- C2 counterexample: an unseen inbound frame with `hops = 0 < 3` from a
non-local source is ingested but re-emitted to no session at all — the
claimed hop-incrementing re-broadcast does not happen. -/
theorem C2_counterexample_no_repropagation :
    (handleContextFrameEvent 1000 1000 {} exampleInboundFrame).2 = [] ∧
      exampleInboundFrame.hops = some 0 ∧
      exampleInboundFrame.sourceDeviceId ≠ "device-b" ∧
      (handleContextFrameEvent 1000 1000 {} exampleInboundFrame).1.frameLog =
        [exampleInboundFrame] :=
  ⟨rfl, rfl, by decide, rfl⟩

/-- C2 (amended): every inbound `context.frame` event is handed to
`WorldModel.ingest` — a frame whose `frameId` is already seen leaves the
world model unchanged, an unseen one lands in the ring buffer — and the
handler never re-emits the frame to any session, whatever its `hops`
value. -/
theorem C2_ingest_without_repropagation (now : Int) (maxH : Nat)
    (wm : WorldModel) (f : ContextFrame) :
    (handleContextFrameEvent now maxH wm f).2 = [] ∧
      (f.frameId ∈ wm.seenFrameIds → (handleContextFrameEvent now maxH wm f).1 = wm) ∧
      (1 ≤ maxH → f.frameId ∉ wm.seenFrameIds →
        f ∈ (handleContextFrameEvent now maxH wm f).1.frameLog) := by
  refine ⟨rfl, ?_, ?_⟩
  · intro hseen
    simp only [handleContextFrameEvent, ingest]
    rw [if_pos (List.elem_iff.mpr hseen)]
  · intro hmax hnot
    simp only [handleContextFrameEvent, ingest]
    rw [if_neg (fun hc => hnot (List.elem_iff.mp hc))]
    exact mem_trimmedLog wm.frameLog f maxH hmax

/-- C2 witness: the concrete inbound frame is ingested (it ends up in the
ring buffer) at an empty world model. -/
theorem C2_ingest_without_repropagation_witness :
    exampleInboundFrame ∈
      (handleContextFrameEvent 1000 1000 {} exampleInboundFrame).1.frameLog :=
  (C2_ingest_without_repropagation 1000 1000 {} exampleInboundFrame).2.2
    (by decide) (by simp)

/-! ### C7 — the world model ingests every frame at most once -/

/-- The normal form of a successful ingest (unseen `frameId`). -/
theorem ingest_not_seen_eq (now : Int) (maxH : Nat) (f : ContextFrame)
    (wm : WorldModel) (hc : ¬ wm.seenFrameIds.contains f.frameId = true) :
    ingest now maxH f wm =
      (true,
        { entries := mapSet (makeKey f)
            { lastFrame := f, lastUpdated := now,
              updateCount := (match mapLookup (makeKey f) wm.entries with
                | some e => e.updateCount | none => 0) + 1 } wm.entries,
          frameLog := (if (wm.frameLog ++ [f]).length > maxH then
              (if maxH = 0 then wm.frameLog ++ [f]
                else (wm.frameLog ++ [f]).drop ((wm.frameLog ++ [f]).length - maxH))
            else wm.frameLog ++ [f]),
          seenFrameIds := (if (wm.seenFrameIds ++ [f.frameId]).length > maxH * 2 then
              ((if (wm.frameLog ++ [f]).length > maxH then
                  (if maxH = 0 then wm.frameLog ++ [f]
                    else (wm.frameLog ++ [f]).drop ((wm.frameLog ++ [f]).length - maxH))
                else wm.frameLog ++ [f])).map (fun g => g.frameId)
            else wm.seenFrameIds ++ [f.frameId]) }) := by
  simp only [ingest]
  rw [if_neg hc]

/-- C7: re-ingesting a frame whose `frameId` is already in the seen set is a
complete no-op (`false` result, per-key entries, update counts and ring
buffer all unchanged); in particular this holds for a frame that was just
ingested, and the seen-set trim keeps at least the `frameId` of every frame
still in the ring buffer, so the invariant backing this no-double-ingest
behavior survives every trim. -/
theorem C7_ingest_at_most_once (wm : WorldModel) (f : ContextFrame)
    (now now₂ : Int) (maxH : Nat) (hmax : 1 ≤ maxH)
    (hseen : ∀ g ∈ wm.frameLog, g.frameId ∈ wm.seenFrameIds) :
    (ingest now₂ maxH f (ingest now maxH f wm).2 =
        (false, (ingest now maxH f wm).2)) ∧
      (∀ g ∈ (ingest now maxH f wm).2.frameLog,
        g.frameId ∈ (ingest now maxH f wm).2.seenFrameIds) := by
  by_cases hc : wm.seenFrameIds.contains f.frameId = true
  · have hstate : (ingest now maxH f wm).2 = wm := by
      simp only [ingest]
      rw [if_pos hc]
    rw [hstate]
    refine ⟨?_, hseen⟩
    simp only [ingest]
    rw [if_pos hc]
  · rw [ingest_not_seen_eq now maxH f wm hc]
    have hfmem : f ∈ (if (wm.frameLog ++ [f]).length > maxH then
        (if maxH = 0 then wm.frameLog ++ [f]
          else (wm.frameLog ++ [f]).drop ((wm.frameLog ++ [f]).length - maxH))
      else wm.frameLog ++ [f]) := mem_trimmedLog wm.frameLog f maxH hmax
    have hsub : ∀ g ∈ (if (wm.frameLog ++ [f]).length > maxH then
        (if maxH = 0 then wm.frameLog ++ [f]
          else (wm.frameLog ++ [f]).drop ((wm.frameLog ++ [f]).length - maxH))
      else wm.frameLog ++ [f]), g ∈ wm.frameLog ++ [f] := by
      intro g hg
      revert hg
      split
      · split
        · exact fun hg => hg
        · exact fun hg => List.drop_subset _ _ hg
      · exact fun hg => hg
    have hseen₂ : ∀ g ∈ (if (wm.frameLog ++ [f]).length > maxH then
        (if maxH = 0 then wm.frameLog ++ [f]
          else (wm.frameLog ++ [f]).drop ((wm.frameLog ++ [f]).length - maxH))
      else wm.frameLog ++ [f]),
        g.frameId ∈ (if (wm.seenFrameIds ++ [f.frameId]).length > maxH * 2 then
            ((if (wm.frameLog ++ [f]).length > maxH then
                (if maxH = 0 then wm.frameLog ++ [f]
                  else (wm.frameLog ++ [f]).drop ((wm.frameLog ++ [f]).length - maxH))
              else wm.frameLog ++ [f])).map (fun g => g.frameId)
          else wm.seenFrameIds ++ [f.frameId]) := by
      intro g hg
      split
      · exact List.mem_map_of_mem _ hg
      · rcases List.mem_append.mp (hsub g hg) with hgl | hgf
        · exact List.mem_append_left _ (hseen g hgl)
        · rw [List.mem_singleton.mp hgf]
          exact List.mem_append_right _ (by simp)
    refine ⟨?_, hseen₂⟩
    simp only [ingest]
    rw [if_pos (List.elem_iff.mpr (hseen₂ f hfmem))]

/-- C7 witness: at an empty world model and a concrete frame, the second
ingest of the same frame is a no-op. -/
theorem C7_ingest_at_most_once_witness :
    ingest 2000 1000 exampleInboundFrame
        (ingest 1000 1000 exampleInboundFrame {}).2 =
      (false, (ingest 1000 1000 exampleInboundFrame {}).2) :=
  (C7_ingest_at_most_once {} exampleInboundFrame 1000 2000 1000
      (by decide) (by simp)).1

/-! ### Association-map lemmas (for the peer registry) -/

theorem mapErase_cons_self {β : Type} {k k₂ : String} (v : β)
    (m : List (String × β)) (h : k₂ = k) :
    mapErase k ((k₂, v) :: m) = mapErase k m := by
  simp [mapErase, List.filter_cons, h]

theorem mapErase_cons_ne {β : Type} {k k₂ : String} (v : β)
    (m : List (String × β)) (h : k₂ ≠ k) :
    mapErase k ((k₂, v) :: m) = (k₂, v) :: mapErase k m := by
  simp [mapErase, List.filter_cons, bne_iff_ne, h]

theorem mapLookup_append {β : Type} (k : String) (l₁ l₂ : List (String × β)) :
    mapLookup k (l₁ ++ l₂) =
      (match mapLookup k l₁ with
        | some v => some v
        | none => mapLookup k l₂) := by
  induction l₁ with
  | nil => simp [mapLookup]
  | cons e rest ih =>
    rcases e with ⟨k₂, v⟩
    by_cases h : k₂ = k
    · simp [mapLookup, h]
    · simp only [List.cons_append, mapLookup, if_neg h]
      exact ih

theorem mapLookup_mapErase_self {β : Type} (k : String) (m : List (String × β)) :
    mapLookup k (mapErase k m) = none := by
  induction m with
  | nil => rfl
  | cons e rest ih =>
    rcases e with ⟨k₂, v⟩
    by_cases h : k₂ = k
    · rw [mapErase_cons_self v rest h]
      exact ih
    · rw [mapErase_cons_ne v rest h]
      simp only [mapLookup, if_neg h]
      exact ih

theorem mapLookup_mapErase_ne {β : Type} {k k₂ : String} (m : List (String × β))
    (h : k₂ ≠ k) : mapLookup k₂ (mapErase k m) = mapLookup k₂ m := by
  induction m with
  | nil => rfl
  | cons e rest ih =>
    rcases e with ⟨k₃, v⟩
    by_cases h₃ : k₃ = k
    · rw [mapErase_cons_self v rest h₃]
      rw [ih]
      have : ¬ k₃ = k₂ := fun he => h (he ▸ h₃ ▸ rfl)
      simp only [mapLookup, if_neg this]
    · rw [mapErase_cons_ne v rest h₃]
      by_cases he : k₃ = k₂
      · simp [mapLookup, he]
      · simp only [mapLookup, if_neg he]
        exact ih

theorem mapLookup_mapSet_self {β : Type} (k : String) (v : β)
    (m : List (String × β)) : mapLookup k (mapSet k v m) = some v := by
  rw [mapSet, mapLookup_append, mapLookup_mapErase_self]
  simp [mapLookup]

theorem mapLookup_mapSet_ne {β : Type} {k k₂ : String} (v : β)
    (m : List (String × β)) (h : k₂ ≠ k) :
    mapLookup k₂ (mapSet k v m) = mapLookup k₂ m := by
  rw [mapSet, mapLookup_append]
  rw [mapLookup_mapErase_ne m h]
  rcases hl : mapLookup k₂ m with _ | v₂
  · simp only [mapLookup]
    rw [if_neg (fun he => h he.symm)]
  · rfl

theorem mapErase_of_lookup_none {β : Type} {k : String} {m : List (String × β)}
    (h : mapLookup k m = none) : mapErase k m = m := by
  induction m with
  | nil => rfl
  | cons e rest ih =>
    rcases e with ⟨k₂, v⟩
    rw [mapLookup] at h
    by_cases h₂ : k₂ = k
    · rw [if_pos h₂] at h
      exact absurd h (by simp)
    · rw [if_neg h₂] at h
      rw [mapErase_cons_ne v rest h₂, ih h]

theorem mem_of_mem_mapErase {β : Type} {k : String} {m : List (String × β)}
    {e : String × β} (h : e ∈ mapErase k m) : e ∈ m ∧ e.1 ≠ k := by
  rw [mapErase, List.mem_filter] at h
  exact ⟨h.1, bne_iff_ne.mp h.2⟩

theorem mem_mapSet_elim {β : Type} {k : String} {v : β} {m : List (String × β)}
    {e : String × β} (h : e ∈ mapSet k v m) :
    e = (k, v) ∨ (e ∈ m ∧ e.1 ≠ k) := by
  rw [mapSet] at h
  rcases List.mem_append.mp h with h₁ | h₂
  · exact Or.inr (mem_of_mem_mapErase h₁)
  · exact Or.inl (List.mem_singleton.mp h₂)

theorem nodupKeys_mapErase {β : Type} (k : String) {m : List (String × β)}
    (h : NodupKeys m) : NodupKeys (mapErase k m) := by
  unfold NodupKeys at h
  unfold NodupKeys mapErase
  exact h.sublist ((List.filter_sublist m).map Prod.fst)

theorem nodupKeys_mapSet {β : Type} (k : String) (v : β) {m : List (String × β)}
    (h : NodupKeys m) : NodupKeys (mapSet k v m) := by
  unfold NodupKeys mapSet
  rw [List.map_append]
  refine List.Nodup.append (nodupKeys_mapErase k h) (by simp) ?_
  intro a ha hb
  rw [List.mem_map] at ha
  obtain ⟨e, he, hae⟩ := ha
  rw [List.map_singleton, List.mem_singleton] at hb
  exact (mem_of_mem_mapErase he).2 (by rw [hae, hb])

theorem mem_of_mapLookup {β : Type} {k : String} {v : β} {m : List (String × β)}
    (h : mapLookup k m = some v) : (k, v) ∈ m := by
  induction m with
  | nil => simp [mapLookup] at h
  | cons e rest ih =>
    rcases e with ⟨k₂, v₂⟩
    rw [mapLookup] at h
    by_cases h₂ : k₂ = k
    · rw [if_pos h₂] at h
      simp only [Option.some.injEq] at h
      rw [← h, ← h₂]
      simp
    · rw [if_neg h₂] at h
      exact List.mem_cons_of_mem _ (ih h)

theorem mapLookup_of_mem {β : Type} {k : String} {v : β} {m : List (String × β)}
    (hnd : NodupKeys m) (h : (k, v) ∈ m) : mapLookup k m = some v := by
  induction m with
  | nil => simp at h
  | cons e rest ih =>
    rcases e with ⟨k₂, v₂⟩
    unfold NodupKeys at hnd
    rw [List.map_cons, List.nodup_cons] at hnd
    rcases List.mem_cons.mp h with he | he
    · have hk : k = k₂ := congrArg Prod.fst he
      have hv : v = v₂ := congrArg Prod.snd he
      rw [mapLookup, if_pos hk.symm, hv]
    · rw [mapLookup]
      by_cases h₂ : k₂ = k
      · exfalso
        apply hnd.1
        rw [List.mem_map]
        exact ⟨(k, v), he, h₂.symm⟩
      · rw [if_neg h₂]
        exact ih hnd.2 he

/-! ### C8 — reconnect eviction in the peer session registry -/

theorem mapLookup_mapErase_none {β : Type} {k k₂ : String} {m : List (String × β)}
    (h : mapLookup k m = none) : mapLookup k (mapErase k₂ m) = none := by
  by_cases he : k = k₂
  · rw [he]
    exact mapLookup_mapErase_self ..
  · rw [mapLookup_mapErase_ne m he]
    exact h

theorem lookup_unregister_peersByConn (c : String) (st : PeerRegistry) :
    (unregister c st).2.1.peersByConn = mapErase c st.peersByConn := by
  rcases hc : mapLookup c st.peersByConn with _ | d
  · simp only [unregister, hc]
    exact (mapErase_of_lookup_none hc).symm
  · simp only [unregister, hc]

theorem regInv_unregister (c : String) (st : PeerRegistry) (h : RegInv st) :
    RegInv (unregister c st).2.1 := by
  rcases hc : mapLookup c st.peersByConn with _ | d
  · simp only [unregister, hc]
    exact h
  · simp only [unregister, hc]
    have hbyId : ∀ e, e ∈ (match mapLookup d st.peersById with
        | some session =>
          if session.connId = c then mapErase d st.peersById else st.peersById
        | none => st.peersById) →
        e ∈ st.peersById ∧ e.2.connId ≠ c := by
      intro e he
      rcases hd : mapLookup d st.peersById with _ | sess
      · rw [hd] at he
        simp only [] at he
        refine ⟨he, fun hcc => ?_⟩
        have hed : e.1 = d := by
          have := (h.2.2 e he).2
          rw [hcc, hc] at this
          exact (Option.some.inj this).symm
        have : mapLookup d st.peersById = some e.2 :=
          mapLookup_of_mem h.1 (by rw [← hed]; simpa using he)
        rw [hd] at this
        exact Option.noConfusion this
      · rw [hd] at he
        simp only [] at he
        by_cases hsc : sess.connId = c
        · rw [if_pos hsc] at he
          obtain ⟨hmem, hne⟩ := mem_of_mem_mapErase he
          refine ⟨hmem, fun hcc => ?_⟩
          have hed : e.1 = d := by
            have := (h.2.2 e hmem).2
            rw [hcc, hc] at this
            exact (Option.some.inj this).symm
          exact hne hed
        · rw [if_neg hsc] at he
          refine ⟨he, fun hcc => ?_⟩
          have hed : e.1 = d := by
            have := (h.2.2 e he).2
            rw [hcc, hc] at this
            exact (Option.some.inj this).symm
          have : mapLookup d st.peersById = some e.2 :=
            mapLookup_of_mem h.1 (by rw [← hed]; simpa using he)
          rw [hd] at this
          have hes : e.2 = sess := (Option.some.inj this).symm
          exact hsc (by rw [← hes, hcc])
    refine ⟨?_, nodupKeys_mapErase c h.2.1, ?_⟩
    · rcases hd : mapLookup d st.peersById with _ | sess
      · exact h.1
      · simp only []
        by_cases hsc : sess.connId = c
        · rw [if_pos hsc]
          exact nodupKeys_mapErase d h.1
        · rw [if_neg hsc]
          exact h.1
    · intro e he
      obtain ⟨hmem, hne⟩ := hbyId e he
      obtain ⟨hd, hl⟩ := h.2.2 e hmem
      exact ⟨hd, by rw [mapLookup_mapErase_ne _ hne]; exact hl⟩

theorem register_peersByConn (s : PeerSession) (st : PeerRegistry) :
    (register s st).1.peersByConn = mapSet s.connId s.deviceId
      (match mapLookup s.deviceId st.peersById with
        | some existing => mapErase existing.connId st.peersByConn
        | none => st.peersByConn) := by
  rcases hex : mapLookup s.deviceId st.peersById with _ | existing
  · simp only [register, hex]
  · simp only [register, hex, lookup_unregister_peersByConn]

theorem regInv_register (s : PeerSession) (st : PeerRegistry) (h : RegInv st)
    (hfresh : mapLookup s.connId st.peersByConn = none) :
    RegInv (register s st).1 ∧
      mapLookup s.deviceId (register s st).1.peersById = some s := by
  obtain ⟨st₂, hstInv, hstFresh, hreg⟩ :
      ∃ st₂, RegInv st₂ ∧ mapLookup s.connId st₂.peersByConn = none ∧
        (register s st).1 = ⟨mapSet s.deviceId s st₂.peersById,
          mapSet s.connId s.deviceId st₂.peersByConn, st₂.pendingRpc⟩ := by
    rcases hex : mapLookup s.deviceId st.peersById with _ | existing
    · exact ⟨st, h, hfresh, by simp only [register, hex]⟩
    · refine ⟨(unregister existing.connId st).2.1,
        regInv_unregister existing.connId st h, ?_, by simp only [register, hex]⟩
      rw [lookup_unregister_peersByConn]
      exact mapLookup_mapErase_none hfresh
  rw [hreg]
  refine ⟨⟨nodupKeys_mapSet _ _ hstInv.1, nodupKeys_mapSet _ _ hstInv.2.1, ?_⟩,
    mapLookup_mapSet_self ..⟩
  intro e he
  rcases mem_mapSet_elim he with rfl | ⟨hmem, _⟩
  · exact ⟨rfl, mapLookup_mapSet_self ..⟩
  · obtain ⟨hd, hl⟩ := hstInv.2.2 e hmem
    have hcne : e.2.connId ≠ s.connId := by
      intro hca
      rw [hca, hstFresh] at hl
      exact Option.noConfusion hl
    exact ⟨hd, by rw [mapLookup_mapSet_ne _ _ hcne]; exact hl⟩

/-- Under the registry invariant no two registered sessions share a
`deviceId` or a `connId`. -/
theorem regInv_sessions_unique {st : PeerRegistry} (h : RegInv st) :
    ∀ e₁ ∈ st.peersById, ∀ e₂ ∈ st.peersById,
      (e₁.2.deviceId = e₂.2.deviceId ∨ e₁.2.connId = e₂.2.connId) → e₁ = e₂ := by
  intro e₁ h₁ e₂ h₂ hor
  have hkey : e₁.1 = e₂.1 := by
    rcases hor with hd | hc
    · rw [← (h.2.2 e₁ h₁).1, ← (h.2.2 e₂ h₂).1, hd]
    · have l₁ := (h.2.2 e₁ h₁).2
      have l₂ := (h.2.2 e₂ h₂).2
      rw [hc] at l₁
      exact Option.some.inj (l₁.symm.trans l₂)
  have hl₁ : mapLookup e₁.1 st.peersById = some e₁.2 :=
    mapLookup_of_mem h.1 (by simpa using h₁)
  have hl₂ : mapLookup e₂.1 st.peersById = some e₂.2 :=
    mapLookup_of_mem h.1 (by simpa using h₂)
  rw [hkey] at hl₁
  exact Prod.ext hkey (Option.some.inj (hl₁.symm.trans hl₂))

/-- C8: when peer `P` registers with `connId = c1` and registers again with
a fresh `connId = c2` before `c1` closes, the registry afterwards holds
exactly one session for `P` — the new one — every RPC pending against `P` at
eviction time is resolved with `PEER_DISCONNECTED`, the dual-index invariant
(no two sessions sharing a `deviceId` or a `connId`) holds after each step,
and a later stale `unregister(c1)` is a complete no-op. -/
theorem C8_reconnect_eviction (st₀ : PeerRegistry) (s1 s2 : PeerSession)
    (hInv : RegInv st₀)
    (hdev : s1.deviceId = s2.deviceId)
    (hfresh1 : mapLookup s1.connId st₀.peersByConn = none)
    (hfresh2 : mapLookup s2.connId st₀.peersByConn = none)
    (hne : s1.connId ≠ s2.connId) :
    (mapLookup s2.deviceId (register s2 (register s1 st₀).1).1.peersById = some s2) ∧
    (∀ e ∈ (register s2 (register s1 st₀).1).1.peersById,
      e.2.deviceId = s2.deviceId → e.2 = s2) ∧
    ((register s2 (register s1 st₀).1).2 =
      ((register s1 st₀).1.pendingRpc.filter
          (fun e => e.2.deviceId == s2.deviceId)).map
        (fun e => RpcFailure.mk e.1 e.2.deviceId e.2.method "PEER_DISCONNECTED")) ∧
    RegInv (register s1 st₀).1 ∧
    RegInv (register s2 (register s1 st₀).1).1 ∧
    (∀ e₁ ∈ (register s2 (register s1 st₀).1).1.peersById,
      ∀ e₂ ∈ (register s2 (register s1 st₀).1).1.peersById,
        (e₁.2.deviceId = e₂.2.deviceId ∨ e₁.2.connId = e₂.2.connId) → e₁ = e₂) ∧
    (unregister s1.connId (register s2 (register s1 st₀).1).1 =
      (none, (register s2 (register s1 st₀).1).1, [])) := by
  obtain ⟨hInv₁, hlook₁⟩ := regInv_register s1 st₀ hInv hfresh1
  set st₁ := (register s1 st₀).1 with hst₁
  have hfresh2' : mapLookup s2.connId st₁.peersByConn = none := by
    rw [hst₁, register_peersByConn]
    rw [mapLookup_mapSet_ne _ _ (fun hn => hne hn.symm)]
    rcases mapLookup s1.deviceId st₀.peersById with _ | existing
    · exact hfresh2
    · exact mapLookup_mapErase_none hfresh2
  obtain ⟨hInv₂, hlook₂⟩ := regInv_register s2 st₁ hInv₁ hfresh2'
  have hlook₁' : mapLookup s2.deviceId st₁.peersById = some s1 := by
    rw [← hdev]
    exact hlook₁
  have hconn₁ : mapLookup s1.connId st₁.peersByConn = some s1.deviceId := by
    rw [hst₁, register_peersByConn]
    exact mapLookup_mapSet_self ..
  have hu : unregister s1.connId st₁ =
      (some s1.deviceId,
        ⟨mapErase s1.deviceId st₁.peersById, mapErase s1.connId st₁.peersByConn,
          st₁.pendingRpc.filter (fun e => e.2.deviceId != s1.deviceId)⟩,
        (st₁.pendingRpc.filter (fun e => e.2.deviceId == s1.deviceId)).map
          (fun e => RpcFailure.mk e.1 e.2.deviceId e.2.method "PEER_DISCONNECTED")) := by
    simp only [unregister, hconn₁, hlook₁, if_pos rfl, if_true]
  have hreg₂ : register s2 st₁ =
      (⟨mapSet s2.deviceId s2 (mapErase s1.deviceId st₁.peersById),
        mapSet s2.connId s2.deviceId (mapErase s1.connId st₁.peersByConn),
        st₁.pendingRpc.filter (fun e => e.2.deviceId != s1.deviceId)⟩,
      (st₁.pendingRpc.filter (fun e => e.2.deviceId == s1.deviceId)).map
        (fun e => RpcFailure.mk e.1 e.2.deviceId e.2.method "PEER_DISCONNECTED")) := by
    simp only [register, hlook₁', hu]
  refine ⟨hlook₂, ?_, ?_, hInv₁, hInv₂, regInv_sessions_unique hInv₂, ?_⟩
  · intro e he hed
    have hkey : e.1 = s2.deviceId := by
      rw [← (hInv₂.2.2 e he).1, hed]
    have hl : mapLookup e.1 (register s2 st₁).1.peersById =
        some e.2 := mapLookup_of_mem hInv₂.1 (by simpa using he)
    rw [hkey, hlook₂] at hl
    exact (Option.some.inj hl).symm
  · rw [hreg₂, hdev]
  · have hnoc : mapLookup s1.connId (register s2 st₁).1.peersByConn = none := by
      rw [hreg₂]
      rw [mapLookup_mapSet_ne _ _ hne]
      exact mapLookup_mapErase_self ..
    simp only [unregister, hnoc]

/-- C8 witness: the scenario at a concrete initial registry (one unrelated
peer `peer-b`, one pending RPC against `P`): after reconnect the lookup for
`P` yields the `c2` session, and the `c1`-bound pending RPC fails with
`PEER_DISCONNECTED`. -/
theorem C8_reconnect_eviction_witness :
    (mapLookup "P"
      (register { deviceId := "P", connId := "c2" }
        (register { deviceId := "P", connId := "c1" }
          { peersById := [("peer-b", { deviceId := "peer-b", connId := "c0" })],
            peersByConn := [("c0", "peer-b")],
            pendingRpc := [("req-1", { deviceId := "P", method := "mesh.peers" })] }).1).1.peersById =
      some { deviceId := "P", connId := "c2" }) ∧
    ((register { deviceId := "P", connId := "c2" }
        (register { deviceId := "P", connId := "c1" }
          { peersById := [("peer-b", { deviceId := "peer-b", connId := "c0" })],
            peersByConn := [("c0", "peer-b")],
            pendingRpc := [("req-1", { deviceId := "P", method := "mesh.peers" })] }).1).2 =
      [{ id := "req-1", deviceId := "P", method := "mesh.peers",
         code := "PEER_DISCONNECTED" }]) := by
  have h := C8_reconnect_eviction
    { peersById := [("peer-b", { deviceId := "peer-b", connId := "c0" })],
      peersByConn := [("c0", "peer-b")],
      pendingRpc := [("req-1", { deviceId := "P", method := "mesh.peers" })] }
    { deviceId := "P", connId := "c1" } { deviceId := "P", connId := "c2" }
    (by
      refine ⟨by unfold NodupKeys; decide, by unfold NodupKeys; decide, ?_⟩
      intro e he
      simp only [List.mem_singleton] at he
      rw [he]
      exact ⟨rfl, rfl⟩)
    rfl rfl rfl (by decide)
  refine ⟨h.1, ?_⟩
  rw [h.2.2.1]
  rfl

/-! ### C6 — canonical comparison of envelope and top-level trust -/

theorem sortStrings_perm_eq {l₁ l₂ : List String} (h : l₁.Perm l₂) :
    sortStrings l₁ = sortStrings l₂ := by
  unfold sortStrings
  apply List.eq_of_perm_of_sorted (r := fun a b : String => a ≤ b)
  · exact (List.perm_insertionSort _ l₁).trans (h.trans (List.perm_insertionSort _ l₂).symm)
  · exact List.sorted_insertionSort _ l₁
  · exact List.sorted_insertionSort _ l₂

/-- Canonicalization is order-independent over `evidence_sources` and
`approved_by`: trust blocks equal up to permutation of the two arrays
canonicalize identically. -/
theorem canonicalizeTrust_perm (t t₂ : MeshForwardTrustMetadata)
    (ha : t₂.action_type = t.action_type)
    (he : t₂.evidence_trust_tier = t.evidence_trust_tier)
    (hm : t₂.minimum_trust_tier = t.minimum_trust_tier)
    (hvr : t₂.verification_required = t.verification_required)
    (hvs : t₂.verification_satisfied = t.verification_satisfied)
    (hes : OptPerm t₂.evidence_sources t.evidence_sources)
    (hab : OptPerm t₂.approved_by t.approved_by) :
    canonicalizeTrust (some t₂) = canonicalizeTrust (some t) := by
  have hesEq : (match t₂.evidence_sources with
      | some l => [("evidence_sources", CanonVal.arr (sortStrings l))]
      | none => ([] : List (String × CanonVal))) =
      (match t.evidence_sources with
      | some l => [("evidence_sources", CanonVal.arr (sortStrings l))]
      | none => []) := by
    rcases h₂ : t₂.evidence_sources with _ | l₂ <;> rcases h₁ : t.evidence_sources with _ | l₁
    · rfl
    · rw [h₂, h₁] at hes
      exact absurd hes (by simp [OptPerm])
    · rw [h₂, h₁] at hes
      exact absurd hes (by simp [OptPerm])
    · rw [h₂, h₁] at hes
      simp only [OptPerm] at hes
      simp [sortStrings_perm_eq hes]
  have habEq : (match t₂.approved_by with
      | some l => [("approved_by", CanonVal.arr (sortStrings l))]
      | none => ([] : List (String × CanonVal))) =
      (match t.approved_by with
      | some l => [("approved_by", CanonVal.arr (sortStrings l))]
      | none => []) := by
    rcases h₂ : t₂.approved_by with _ | l₂ <;> rcases h₁ : t.approved_by with _ | l₁
    · rfl
    · rw [h₂, h₁] at hab
      exact absurd hab (by simp [OptPerm])
    · rw [h₂, h₁] at hab
      exact absurd hab (by simp [OptPerm])
    · rw [h₂, h₁] at hab
      simp only [OptPerm] at hab
      simp [sortStrings_perm_eq hab]
  simp only [canonicalizeTrust, ha, he, hm, hvr, hvs, hesEq, habEq]

theorem jGetO_some (v : JVal) (key : String) : jGetO (some v) key = jGet v key := rfl

theorem jRecord_some_trustToJVal (t : MeshForwardTrustMetadata) :
    jRecord (some (trustToJVal t)) = true := rfl

theorem isRecordJ_envelopeToJVal (e : ClawMeshCommandEnvelopeV1) :
    isRecordJ (envelopeToJVal e) = true := rfl

theorem jGet_envelopeToJVal_version (e : ClawMeshCommandEnvelopeV1) :
    jGet (envelopeToJVal e) "version" = some (.num e.version) := rfl

theorem jGet_envelopeToJVal_kind (e : ClawMeshCommandEnvelopeV1) :
    jGet (envelopeToJVal e) "kind" = some (.str e.kind) := rfl

theorem jGet_envelopeToJVal_commandId (e : ClawMeshCommandEnvelopeV1) :
    jGet (envelopeToJVal e) "commandId" = some (.str e.commandId) := rfl

theorem jGet_envelopeToJVal_createdAtMs (e : ClawMeshCommandEnvelopeV1) :
    jGet (envelopeToJVal e) "createdAtMs" = some (.num e.createdAtMs) := rfl

theorem jRecord_envelopeToJVal_target (e : ClawMeshCommandEnvelopeV1) :
    jRecord (jGet (envelopeToJVal e) "target") = true := by
  rcases e with ⟨v, k, c, ca, src, tg, op, tr, nt⟩
  rcases src with _ | s <;> rfl

theorem jGetO_envelopeToJVal_target_ref (e : ClawMeshCommandEnvelopeV1) :
    jGetO (jGet (envelopeToJVal e) "target") "ref" = some (.str e.target.ref) := by
  rcases e with ⟨v, k, c, ca, src, tg, op, tr, nt⟩
  rcases src with _ | s <;> rfl

theorem jGetO_envelopeToJVal_target_kind (e : ClawMeshCommandEnvelopeV1) :
    jGetO (jGet (envelopeToJVal e) "target") "kind" = some (.str e.target.kind) := by
  rcases e with ⟨v, k, c, ca, src, tg, op, tr, nt⟩
  rcases src with _ | s <;> rfl

theorem jRecord_envelopeToJVal_operation (e : ClawMeshCommandEnvelopeV1) :
    jRecord (jGet (envelopeToJVal e) "operation") = true := by
  rcases e with ⟨v, k, c, ca, src, tg, op, tr, nt⟩
  rcases src with _ | s <;> rfl

theorem jGetO_envelopeToJVal_operation_name (e : ClawMeshCommandEnvelopeV1) :
    jGetO (jGet (envelopeToJVal e) "operation") "name" = some (.str e.operation.name) := by
  rcases e with ⟨v, k, c, ca, src, tg, op, tr, nt⟩
  rcases op with ⟨nm, ps⟩
  rcases src with _ | s <;> rcases ps with _ | p <;> rfl

theorem jRecord_envelopeToJVal_trust (e : ClawMeshCommandEnvelopeV1) :
    jRecord (jGet (envelopeToJVal e) "trust") = true := by
  rcases e with ⟨v, k, c, ca, src, tg, op, tr, nt⟩
  rcases src with _ | s <;> rfl

theorem jGet_envelopeToJVal_trust (e : ClawMeshCommandEnvelopeV1) :
    jGet (envelopeToJVal e) "trust" = some (trustToJVal e.trust) := by
  rcases e with ⟨v, k, c, ca, src, tg, op, tr, nt⟩
  rcases src with _ | s <;> rfl

theorem jGet_trustToJVal_action_type (t : MeshForwardTrustMetadata) :
    jGet (trustToJVal t) "action_type" = t.action_type.map JVal.str := by
  rcases t with ⟨a, e, m, vr, vs, es, ab⟩
  rcases a with _ | a <;> rcases e with _ | e <;> rcases m with _ | m <;>
    rcases vr with _ | vr <;> rcases vs with _ | vs <;> rcases es with _ | es <;>
    rcases ab with _ | ab <;> rfl

theorem jGet_trustToJVal_evidence (t : MeshForwardTrustMetadata) :
    jGet (trustToJVal t) "evidence_trust_tier" = t.evidence_trust_tier.map JVal.str := by
  rcases t with ⟨a, e, m, vr, vs, es, ab⟩
  rcases a with _ | a <;> rcases e with _ | e <;> rcases m with _ | m <;>
    rcases vr with _ | vr <;> rcases vs with _ | vs <;> rcases es with _ | es <;>
    rcases ab with _ | ab <;> rfl

theorem jGet_trustToJVal_minimum (t : MeshForwardTrustMetadata) :
    jGet (trustToJVal t) "minimum_trust_tier" = t.minimum_trust_tier.map JVal.str := by
  rcases t with ⟨a, e, m, vr, vs, es, ab⟩
  rcases a with _ | a <;> rcases e with _ | e <;> rcases m with _ | m <;>
    rcases vr with _ | vr <;> rcases vs with _ | vs <;> rcases es with _ | es <;>
    rcases ab with _ | ab <;> rfl

theorem jGet_trustToJVal_verification (t : MeshForwardTrustMetadata) :
    jGet (trustToJVal t) "verification_required" =
      t.verification_required.map JVal.str := by
  rcases t with ⟨a, e, m, vr, vs, es, ab⟩
  rcases a with _ | a <;> rcases e with _ | e <;> rcases m with _ | m <;>
    rcases vr with _ | vr <;> rcases vs with _ | vs <;> rcases es with _ | es <;>
    rcases ab with _ | ab <;> rfl

/-- Envelope validation never inspects `verification_satisfied`,
`evidence_sources` or `approved_by`, so it is invariant under replacing the
envelope's trust block by one agreeing on the four validated scalars. -/
theorem validate_envelopeToJVal_scalars (env : ClawMeshCommandEnvelopeV1)
    (t₂ : MeshForwardTrustMetadata)
    (ha : t₂.action_type = env.trust.action_type)
    (he : t₂.evidence_trust_tier = env.trust.evidence_trust_tier)
    (hm : t₂.minimum_trust_tier = env.trust.minimum_trust_tier)
    (hvr : t₂.verification_required = env.trust.verification_required) :
    validateClawMeshCommandEnvelope (envelopeToJVal { env with trust := t₂ }) =
      validateClawMeshCommandEnvelope (envelopeToJVal env) := by
  simp only [validateClawMeshCommandEnvelope, isRecordJ_envelopeToJVal,
    jGet_envelopeToJVal_version, jGet_envelopeToJVal_kind,
    jGet_envelopeToJVal_commandId, jGet_envelopeToJVal_createdAtMs,
    jRecord_envelopeToJVal_target, jGetO_envelopeToJVal_target_ref,
    jGetO_envelopeToJVal_target_kind, jRecord_envelopeToJVal_operation,
    jGetO_envelopeToJVal_operation_name, jRecord_envelopeToJVal_trust,
    jGet_envelopeToJVal_trust, jGetO_some, jRecord_some_trustToJVal,
    jGet_trustToJVal_action_type,
    jGet_trustToJVal_evidence, jGet_trustToJVal_minimum,
    jGet_trustToJVal_verification, ha, he, hm, hvr]

/-- C6: when a forward carries both a valid command envelope and a top-level
trust block, the resolver compares the two blocks by their canonical form
(fixed field order, `evidence_sources` and `approved_by` sorted, absent
fields dropped): the outcome is `TRUST_ENVELOPE_MISMATCH` exactly when the
canonical forms differ, and permuting `evidence_sources` or `approved_by` in
either block never changes the outcome. -/
theorem C6_canonical_trust_comparison (payload : MeshForwardPayload)
    (env : ClawMeshCommandEnvelopeV1) (t : MeshForwardTrustMetadata)
    (hcmd : payload.command = some env) (htr : payload.trust = some t)
    (hval : validateClawMeshCommandEnvelope (envelopeToJVal env) = true) :
    ((resolveMeshForwardTrustMetadata payload).code = some "TRUST_ENVELOPE_MISMATCH" ↔
      canonicalizeTrust (some t) ≠ canonicalizeTrust (some env.trust)) ∧
    (∀ t₂, t₂.action_type = t.action_type →
      t₂.evidence_trust_tier = t.evidence_trust_tier →
      t₂.minimum_trust_tier = t.minimum_trust_tier →
      t₂.verification_required = t.verification_required →
      t₂.verification_satisfied = t.verification_satisfied →
      OptPerm t₂.evidence_sources t.evidence_sources →
      OptPerm t₂.approved_by t.approved_by →
      resolveMeshForwardTrustMetadata { payload with trust := some t₂ } =
        resolveMeshForwardTrustMetadata payload) ∧
    (∀ t₂, t₂.action_type = env.trust.action_type →
      t₂.evidence_trust_tier = env.trust.evidence_trust_tier →
      t₂.minimum_trust_tier = env.trust.minimum_trust_tier →
      t₂.verification_required = env.trust.verification_required →
      t₂.verification_satisfied = env.trust.verification_satisfied →
      OptPerm t₂.evidence_sources env.trust.evidence_sources →
      OptPerm t₂.approved_by env.trust.approved_by →
      (resolveMeshForwardTrustMetadata
          { payload with command := some { env with trust := t₂ } }).code =
        (resolveMeshForwardTrustMetadata payload).code) := by
  have hnv : ¬ ¬ (validateClawMeshCommandEnvelope (envelopeToJVal env) = true) :=
    not_not_intro hval
  refine ⟨?_, ?_, ?_⟩
  · simp only [resolveMeshForwardTrustMetadata, hcmd, htr]
    rw [if_neg hnv]
    by_cases hcan : canonicalizeTrust (some t) ≠ canonicalizeTrust (some env.trust)
    · rw [if_pos ⟨by simp, hcan⟩]
      exact iff_of_true rfl hcan
    · rw [if_neg (fun hcond => hcan hcond.2)]
      exact iff_of_false (by simp [ResolveTrustResult.code]) hcan
  · intro t₂ ha he hm hvr hvs hes hab
    have hceq : canonicalizeTrust (some t₂) = canonicalizeTrust (some t) :=
      canonicalizeTrust_perm t t₂ ha he hm hvr hvs hes hab
    simp only [resolveMeshForwardTrustMetadata, hcmd, htr]
    rw [if_neg hnv, if_neg hnv, hceq]
    simp only [Option.isSome_some]
  · intro t₂ ha he hm hvr hvs hes hab
    have hval₂ : validateClawMeshCommandEnvelope
        (envelopeToJVal { env with trust := t₂ }) = true := by
      rw [validate_envelopeToJVal_scalars env t₂ ha he hm hvr]
      exact hval
    have hceq : canonicalizeTrust (some t₂) = canonicalizeTrust (some env.trust) :=
      canonicalizeTrust_perm env.trust t₂ ha he hm hvr hvs hes hab
    simp only [resolveMeshForwardTrustMetadata, hcmd, htr]
    rw [if_neg (not_not_intro hval₂), if_neg hnv, hceq]
    split_ifs <;> rfl

/-- C6 witness: the concrete mismatched payload resolves to
`TRUST_ENVELOPE_MISMATCH`. -/
theorem C6_canonical_trust_comparison_witness :
    (resolveMeshForwardTrustMetadata exampleMismatchPayload).code =
      some "TRUST_ENVELOPE_MISMATCH" :=
  (C6_canonical_trust_comparison exampleMismatchPayload exampleEnvelopeT
      { exampleEnvelopeTrust with
        minimum_trust_tier := some "T3_verified_action_evidence" }
      rfl rfl (by decide)).1.mpr (by decide)

/-! ### C10 — the evaluator never checks the domain of `action_type` -/

/-- C10: trust evaluation accepts any payload whose `action_type` is not the
exact string `"actuation"` — in particular one missing, misspelled, or
outside the declared enum — provided each tier or verification field that is
present (truthy) lies in its domain; every actuation gate is bypassed. -/
theorem C10_action_type_not_validated (payload : MeshForwardPayload)
    (trust : MeshForwardTrustMetadata)
    (hpt : payload.trust = some trust)
    (hact : trust.action_type ≠ some "actuation")
    (hge : truthyStr trust.evidence_trust_tier = true →
      isKnownTrustTier (trust.evidence_trust_tier.getD "") = true)
    (hgm : truthyStr trust.minimum_trust_tier = true →
      isKnownTrustTier (trust.minimum_trust_tier.getD "") = true)
    (hgv : truthyStr trust.verification_required = true →
      isKnownVerificationRequirement (trust.verification_required.getD "") = true) :
    evaluateMeshForwardTrust payload = .ok := by
  have g1 : ¬ (truthyStr trust.evidence_trust_tier = true ∧
      ¬ isKnownTrustTier (trust.evidence_trust_tier.getD "") = true) :=
    fun h => h.2 (hge h.1)
  have g2 : ¬ (truthyStr trust.minimum_trust_tier = true ∧
      ¬ isKnownTrustTier (trust.minimum_trust_tier.getD "") = true) :=
    fun h => h.2 (hgm h.1)
  have g3 : ¬ (truthyStr trust.verification_required = true ∧
      ¬ isKnownVerificationRequirement (trust.verification_required.getD "") = true) :=
    fun h => h.2 (hgv h.1)
  simp only [evaluateMeshForwardTrust, hpt]
  rw [if_neg g1, if_neg g2, if_neg g3, if_pos hact]

/-- C10 witness: an actuation-like command whose `action_type` is misspelled
(`"Actuation"`) sails through with `ok`, LLM-only evidence and all. -/
theorem C10_action_type_not_validated_witness :
    evaluateMeshForwardTrust
        { channel := some "clawmesh", «to» := some "valve:zone-a",
          originGatewayId := some "peer-jetson",
          trust := some { llmOnlyActuationTrust with
            action_type := some "Actuation" } } = .ok :=
  C10_action_type_not_validated _
    { llmOnlyActuationTrust with action_type := some "Actuation" }
    rfl (by decide) (fun _ => by decide) (fun _ => by decide) (fun _ => by decide)

end ClawMesh
